import Mathlib

/-!
Verification development for the Lion-Cloud repository: a shallow embedding
of the register codec, bus transport, block cache, device table and virtual
file system implemented in `lcloud_cache.c` / `lcloud_filesys.c` /
`lcloud_client.c`, together with theorems settling the specification claims.

Bytes are modelled as natural numbers (their unsigned value, 0..255), C
`int`/`int64_t` values as `Int`, and 64-bit register frames as naturals
taken modulo `2 ^ 64`.
-/

namespace LionCloud

/-! ## Opcode and configuration constants

Modelled from the spec: the numeric opcode values are declared in
`lcloud_controller.h`, which is not part of the repository; the spec fixes
only the set of opcodes (power-on, power-off, device-probe, device-init,
block-transfer) and that a block is 256 bytes.  The values below are the
standard assignment values; no claim depends on the particular numbers,
only on their distinctness and 8-bit width. -/

/-- Modelled from the spec: opcode for the power-on command (`LC_POWER_ON`,
declared in the missing header `lcloud_controller.h`). -/
def LC_POWER_ON : Nat := 0

/-- Modelled from the spec: opcode for the device-probe command
(`LC_DEVPROBE`, declared in the missing header `lcloud_controller.h`). -/
def LC_DEVPROBE : Nat := 1

/-- Modelled from the spec: opcode for the device-init command
(`LC_DEVINIT`, declared in the missing header `lcloud_controller.h`). -/
def LC_DEVINIT : Nat := 2

/-- Modelled from the spec: opcode for the block-transfer command
(`LC_BLOCK_XFER`, declared in the missing header `lcloud_controller.h`). -/
def LC_BLOCK_XFER : Nat := 3

/-- Modelled from the spec: opcode for the power-off command
(`LC_POWER_OFF`, declared in the missing header `lcloud_controller.h`). -/
def LC_POWER_OFF : Nat := 4

/-- Modelled from the spec: transfer-direction value selecting a block read
(`LC_XFER_READ`, declared in the missing header `lcloud_controller.h`). -/
def LC_XFER_READ : Nat := 0

/-- Modelled from the spec: transfer-direction value selecting a block write
(`LC_XFER_WRITE`, declared in the missing header `lcloud_controller.h`). -/
def LC_XFER_WRITE : Nat := 1

/-- Modelled from the spec: the fixed device block size in bytes
(`LC_DEVICE_BLOCK_SIZE`); the spec fixes this to 256. -/
def LC_DEVICE_BLOCK_SIZE : Nat := 256

/-- Modelled from the spec: the fixed cache capacity (`LC_CACHE_MAXBLOCKS`,
declared in the missing header `lcloud_cache.h`); the spec says only that it
is a fixed line count supplied at startup.  A small representative value is
used; no claim depends on the particular number. -/
def LC_CACHE_MAXBLOCKS : Nat := 4

/-! ## Register codec (`create_lcloud_registers` / `extract_lcloud_registers`)

Embeds lines 227–283 of `lcloud_filesys.c`.  The seven fields are packed
MSB-first into one 64-bit word: B0[63:60], B1[59:56], C0[55:48], C1[47:40],
C2[39:32], D0[31:16], D1[15:0]. -/

/-- `create_lcloud_registers` from `lcloud_filesys.c`: masks each field to
its declared width, shifts it to its fixed bit position and combines the
seven pieces with bitwise or. -/
def create_lcloud_registers (B0 B1 C0 C1 C2 D0 D1 : Nat) : Nat :=
  ((B0 &&& 0xf) <<< 60) ||| ((B1 &&& 0xf) <<< 56) ||| ((C0 &&& 0xff) <<< 48) |||
  ((C1 &&& 0xff) <<< 40) ||| ((C2 &&& 0xff) <<< 32) ||| ((D0 &&& 0xffff) <<< 16) |||
  (D1 &&& 0xffff)

/-- `extract_lcloud_registers` from `lcloud_filesys.c` (identical to
`lcloud_client_extract_registers` in `lcloud_client.c`): peels the seven
fields off the least-significant end, shifting and masking at each step.
Returned in order (B0, B1, C0, C1, C2, D0, D1). -/
def extract_lcloud_registers (resp : Nat) :
    Nat × Nat × Nat × Nat × Nat × Nat × Nat :=
  let d1 := resp &&& 0xffff
  let r1 := resp >>> 16
  let d0 := r1 &&& 0xffff
  let r2 := r1 >>> 16
  let c2 := r2 &&& 0xff
  let r3 := r2 >>> 8
  let c1 := r3 &&& 0xff
  let r4 := r3 >>> 8
  let c0 := r4 &&& 0xff
  let r5 := r4 >>> 8
  let b1 := r5 &&& 0xf
  let r6 := r5 >>> 4
  let b0 := r6 &&& 0xf
  (b0, b1, c0, c1, c2, d0, d1)

/-! ## Cache (`lcloud_cache.c`)

The cache is a fixed array of lines, each holding a 256-byte buffer, a
logical entry time and the (device, sector, block) key, together with the
global hit/miss/clock counters.  `lcloud_getcache` and `lcloud_putcache`
embed lines 48–106 of `lcloud_cache.c`. -/

/-- One cache line (struct `lcloud_cache` in `lcloud_cache.c`): a 256-byte
buffer, the logical time the line was last entered or touched, and the
(device, sector, block) key of the stored block. -/
structure lcloud_cache where
  buffer : List Nat
  entry_time : Int
  dev_id : Int
  sec : Int
  blk : Int
deriving DecidableEq

/-- The zero-initialised line used as an out-of-range array default. -/
def defaultLine : lcloud_cache := ⟨List.replicate 256 0, 0, 0, 0, 0⟩

/-- The cache globals of `lcloud_cache.c`: the `LRU_cache` array (its length
plays the role of `cache_lines`) and the `hits`, `misses` and `cache_time`
tallies. -/
structure CacheGlobals where
  LRU_cache : List lcloud_cache
  hits : Nat
  misses : Nat
  cache_time : Int
deriving DecidableEq

/-- The entry time of line `i` (out-of-range reads give the default line). -/
def lineTime (g : CacheGlobals) (i : Nat) : Int :=
  (g.LRU_cache.getD i defaultLine).entry_time

/-- The line at index `i` of the cache array. -/
def lineAt (g : CacheGlobals) (i : Nat) : lcloud_cache :=
  g.LRU_cache.getD i defaultLine

/-- The key comparison used by both cache loops:
`LRU_cache[i].dev_id == did && LRU_cache[i].sec == sec && LRU_cache[i].blk == blk`. -/
def cacheKeyMatches (l : lcloud_cache) (did sec blk : Int) : Bool :=
  l.dev_id == did && l.sec == sec && l.blk == blk

/-- The linear search of `lcloud_getcache`: index of the first line whose
key matches, if any. -/
def getcacheScan (did sec blk : Int) : List lcloud_cache → Option Nat
  | [] => none
  | l :: ls =>
    if cacheKeyMatches l did sec blk then some 0
    else
      match getcacheScan did sec blk ls with
      | none => none
      | some i => some (i + 1)

/-- `lcloud_getcache` from `lcloud_cache.c`: increments the clock, scans all
lines for an exact key match; a hit bumps the hit counter, refreshes the
matching line's entry time to the new clock and returns its buffer; a miss
bumps the miss counter and returns nothing. -/
def lcloud_getcache (g : CacheGlobals) (did sec blk : Int) :
    Option (List Nat) × CacheGlobals :=
  match getcacheScan did sec blk g.LRU_cache with
  | some i =>
    (some (g.LRU_cache.getD i defaultLine).buffer,
     { g with
       cache_time := g.cache_time + 1
       hits := g.hits + 1
       LRU_cache := g.LRU_cache.set i
         { g.LRU_cache.getD i defaultLine with
           entry_time := g.cache_time + 1 } })
  | none =>
    (none, { g with cache_time := g.cache_time + 1, misses := g.misses + 1 })

/-- The `strncpy(cache.buffer, block, 256)` of `lcloud_putcache`: copies at
most `n` bytes from the source, but stops copying at the first zero byte and
fills the remainder of the destination with zeros.  (This is not a plain
256-byte copy: bytes after an embedded zero are lost.) -/
def strncpyBytes : List Nat → Nat → List Nat
  | _, 0 => []
  | [], n + 1 => 0 :: strncpyBytes [] n
  | b :: rest, n + 1 =>
    if b = 0 then List.replicate (n + 1) 0 else b :: strncpyBytes rest n

/-- The eviction scan of `lcloud_putcache` (lines 84–94 of
`lcloud_cache.c`): walks the lines with a running `least_time` (initially
the pre-increment clock) and `least_recent` index; a key match returns that
index immediately (the `break`), otherwise a line with `entry_time <
least_time` becomes the new candidate.  `least_recent` starts uninitialised
in the C, modelled as `none`; if the scan never assigns it the C writes
through an indeterminate index, which the model reports as `none`. -/
def putScan (did sec blk : Int) :
    List lcloud_cache → Nat → Int → Option Nat → Option Nat
  | [], _, _, lr => lr
  | l :: ls, i, lt, lr =>
    if cacheKeyMatches l did sec blk then some i
    else if l.entry_time < lt then putScan did sec blk ls (i + 1) l.entry_time (some i)
    else putScan did sec blk ls (i + 1) lt lr

/-- `lcloud_putcache` from `lcloud_cache.c`: advances the clock, runs the
eviction scan, and overwrites the chosen line's key, entry time and buffer
(the buffer via `strncpy`, so bytes after an embedded zero byte are replaced
by zeros).  Returns `none` exactly when the scan leaves `least_recent`
unassigned, in which case the C writes through an uninitialised index
(undefined behaviour). -/
def lcloud_putcache (g : CacheGlobals) (did sec blk : Int) (block : List Nat) :
    Option CacheGlobals :=
  match putScan did sec blk g.LRU_cache 0 g.cache_time none with
  | none => none
  | some i => some
    { g with
      cache_time := g.cache_time + 1
      LRU_cache := g.LRU_cache.set i
        ⟨strncpyBytes block 256, g.cache_time + 1, did, sec, blk⟩ }

/-- `lcloud_initcache` from `lcloud_cache.c` on a fresh process: allocates
`maxblocks` lines with entry time −1 and key fields −1, zeroed buffers; the
`hits`/`misses`/`cache_time` globals are the zero-initialised process
globals. -/
def lcloud_initcache (maxblocks : Nat) : CacheGlobals :=
  { LRU_cache := List.replicate maxblocks ⟨List.replicate 256 0, -1, -1, -1, -1⟩,
    hits := 0, misses := 0, cache_time := 0 }

/-- `lcloud_closecache` from `lcloud_cache.c`: reports the cumulative hit
and miss counters and the ratio `(float)hits / (hits + misses)`, computed
unconditionally.  The reported ratio is modelled as `none` when the
denominator `hits + misses` is zero — the IEEE result of that division is
NaN — and as the exact fraction `(hits, hits + misses)` otherwise (float
rounding is abstracted away). -/
def lcloud_closecache (g : CacheGlobals) : Nat × Nat × Option (Nat × Nat) :=
  (g.hits, g.misses,
   if g.hits + g.misses = 0 then none else some (g.hits, g.hits + g.misses))

/-- A cache workload step: one lookup or one insert. -/
inductive CacheOp where
  | lookup (did sec blk : Int)
  | insert (did sec blk : Int) (p : List Nat)
deriving DecidableEq

/-- Run a list of cache operations; `none` as soon as an insert hits the
uninitialised-index undefined behaviour. -/
def runCacheOps (g : CacheGlobals) : List CacheOp → Option CacheGlobals
  | [] => some g
  | CacheOp.lookup d s b :: ops => runCacheOps (lcloud_getcache g d s b).2 ops
  | CacheOp.insert d s b p :: ops =>
    match lcloud_putcache g d s b p with
    | none => none
    | some g2 => runCacheOps g2 ops

/-- Run a list of lookups only (used for the teardown-statistics claim). -/
def runLookups (g : CacheGlobals) : List (Int × Int × Int) → CacheGlobals
  | [] => g
  | k :: ks => runLookups (lcloud_getcache g k.1 k.2.1 k.2.2).2 ks

/-- The number of lookups in `ks` that hit, starting from state `g`. -/
def countHits (g : CacheGlobals) : List (Int × Int × Int) → Nat
  | [] => 0
  | k :: ks =>
    (if (lcloud_getcache g k.1 k.2.1 k.2.2).1.isSome then 1 else 0) +
      countHits (lcloud_getcache g k.1 k.2.1 k.2.2).2 ks

/-- The cache invariant maintained by every reachable state of a cache with
at least two lines: the clock is non-negative, every entry time lies in
[−1, clock], and entry times of touched lines (≥ 0) are pairwise distinct. -/
def cacheInv (g : CacheGlobals) : Prop :=
  2 ≤ g.LRU_cache.length ∧ 0 ≤ g.cache_time ∧
  (∀ i < g.LRU_cache.length,
    -1 ≤ lineTime g i ∧ lineTime g i ≤ g.cache_time) ∧
  (∀ i < g.LRU_cache.length, ∀ j < g.LRU_cache.length,
    i ≠ j → 0 ≤ lineTime g i → lineTime g i ≠ lineTime g j)

/-! ## Bus transport (`lcloud_client.c`)

`client_lcloud_bus_request` owns the single socket.  Its observable wire
behaviour — which bytes cross the connection, in which order, and what
happens to the socket — is modelled as a trace of wire actions; the remote
end's data is external to the repository. -/

/-- `htonll64`/`ntohll64`: the 64-bit byte-order swap applied to every
frame at the wire boundary. -/
def byteswap64 (x : Nat) : Nat :=
  (x % 256) * 2 ^ 56 + (x / 2 ^ 8 % 256) * 2 ^ 48 +
  (x / 2 ^ 16 % 256) * 2 ^ 40 + (x / 2 ^ 24 % 256) * 2 ^ 32 +
  (x / 2 ^ 32 % 256) * 2 ^ 24 + (x / 2 ^ 40 % 256) * 2 ^ 16 +
  (x / 2 ^ 48 % 256) * 2 ^ 8 + (x / 2 ^ 56 % 256)

/-- One observable action of the bus transport on its connection. -/
inductive WireAct where
  | connect
  | sendFrame (wire : Nat)
  | recvFrame
  | sendPayload (n : Nat)
  | recvPayload (n : Nat)
  | closeConn
deriving DecidableEq

/-- The wire behaviour of `client_lcloud_bus_request` from
`lcloud_client.c`, as a function of whether a connection already exists
(`socket_handle != -1`) and of the request frame: connects first if needed,
extracts C0/C2 from the request, and dispatches to one of the four wire
sequences; returns the action trace and whether a connection remains
afterwards.  Short reads/writes and connect failures are external events
outside the model: the trace lists the transfers the code performs when
each one succeeds. -/
def client_lcloud_bus_request_trace (connected : Bool) (reg : Nat) :
    List WireAct × Bool :=
  if (extract_lcloud_registers reg).2.2.1 = LC_BLOCK_XFER ∧
      (extract_lcloud_registers reg).2.2.2.2.1 = LC_XFER_READ then
    ((if connected then [] else [WireAct.connect]) ++
      [WireAct.sendFrame (byteswap64 reg), WireAct.recvFrame,
       WireAct.recvPayload LC_DEVICE_BLOCK_SIZE], true)
  else if (extract_lcloud_registers reg).2.2.1 = LC_BLOCK_XFER ∧
      (extract_lcloud_registers reg).2.2.2.2.1 = LC_XFER_WRITE then
    ((if connected then [] else [WireAct.connect]) ++
      [WireAct.sendFrame (byteswap64 reg),
       WireAct.sendPayload LC_DEVICE_BLOCK_SIZE, WireAct.recvFrame], true)
  else if (extract_lcloud_registers reg).2.2.1 = LC_POWER_OFF then
    ((if connected then [] else [WireAct.connect]) ++
      [WireAct.sendFrame (byteswap64 reg), WireAct.recvFrame,
       WireAct.closeConn], false)
  else
    ((if connected then [] else [WireAct.connect]) ++
      [WireAct.sendFrame (byteswap64 reg), WireAct.recvFrame], true)

/-- A concrete two-line cache state used as a witness input: line 0 holds
key (1,0,0) last touched at time 1, line 1 holds key (2,0,0) last touched
at time 2, clock at 2. -/
def cacheWitnessState : CacheGlobals :=
  { LRU_cache :=
      [⟨List.replicate 256 0, 1, 1, 0, 0⟩, ⟨List.replicate 256 0, 2, 2, 0, 0⟩],
    hits := 0, misses := 0, cache_time := 2 }

/-- A concrete 256-byte payload used as a witness input. -/
def payloadWitness : List Nat := List.replicate 256 7

/-- Specification-side companion of the eviction scan: the index of the
first line realising the running minimum entry time strictly below `lt`,
if any line lies below `lt` at all. -/
def minBelow : List lcloud_cache → Int → Option Nat
  | [], _ => none
  | l :: ls, lt =>
    if l.entry_time < lt then
      match minBelow ls l.entry_time with
      | none => some 0
      | some j => some (j + 1)
    else
      match minBelow ls lt with
      | none => none
      | some j => some (j + 1)

/-! ## Device table and file system (`lcloud_filesys.c`)

The block descriptors, devices and files of `lcloud_filesys.c`, the global
state they live in, and the driver operations.  The remote storage
controller (server side of the bus) is not part of the repository; it is
modelled from the spec as an ideal store of 256-byte blocks that
acknowledges every request in the form the driver accepts. -/

/-- Struct `lcloud_block`: successor link (−1 = none in each coordinate)
and occupancy flag. -/
structure lcloud_block where
  next_sector : Int
  next_block : Int
  next_dev_id : Int
  used : Int
deriving DecidableEq

/-- Out-of-range default for block reads (such C reads are out of bounds;
they never influence results in consistent states). -/
def defaultBlock : lcloud_block := ⟨0, 0, 0, 0⟩

/-- Struct `lcloud_device`: the sector × block grid of descriptors, the
counts, and the device id (−1 = off / never initialised). -/
structure lcloud_device where
  sector_block : List (List lcloud_block)
  sectors : Int
  blocks : Int
  dev_id : Int
deriving DecidableEq

/-- Out-of-range default for device reads (e.g. `devices[-1]`, which the C
reads but never uses in consistent states). -/
def defaultDevice : lcloud_device := ⟨[], 0, 0, -1⟩

/-- A C pointer value, as compared by `files[fh].name == path` in
`lcopen`: either the address of the `name` array inside `files[fh]`, or an
address outside the file table (any caller-supplied string). -/
inductive Ptr where
  | fileNameField (fh : Nat)
  | external (id : Nat)
deriving DecidableEq

/-- Struct `lcloud_file`: handle field, stored name characters (the content
copied by `strncpy(file.name, path, 259)`), read/write position, size,
first-block coordinates, and the opened flag. -/
structure lcloud_file where
  fh : Int
  name : List Nat
  pos : Int
  size : Int
  block : Int
  sector : Int
  dev_id : Int
  opened : Int
deriving DecidableEq

/-- A zero-initialised slot of the global `files` array. -/
def zeroFile : lcloud_file := ⟨0, [], 0, 0, 0, 0, 0, 0⟩

/-- The process-wide state of `lcloud_filesys.c` and `lcloud_client.c`:
the `file_handle` counter, the `files` array (slots beyond the list are the
zero-initialised remainder), the 16-entry device table, the cache globals,
the modelled remote store (keyed by device/sector/block), and an
instrumentation counter recording how many times `device_power_on` ran. -/
structure FSState where
  file_handle : Int
  files : List lcloud_file
  devices : List lcloud_device
  cache : CacheGlobals
  store : List ((Int × Int × Int) × List Nat)
  power_ons : Nat
deriving DecidableEq

/-- Read `files[fh]` (zero-initialised beyond the written prefix; a
negative index is an out-of-bounds C read, modelled as the zero slot). -/
def fileGet (fs : List lcloud_file) (fh : Int) : lcloud_file :=
  if fh < 0 then zeroFile else fs.getD fh.toNat zeroFile

/-- Write `files[i]`, extending the modelled prefix with zero slots if
needed. -/
def filesSet (fs : List lcloud_file) (i : Nat) (f : lcloud_file) :
    List lcloud_file :=
  if i < fs.length then fs.set i f
  else fs ++ List.replicate (i - fs.length) zeroFile ++ [f]

/-- Read `devices[id]`. -/
def devGet (ds : List lcloud_device) (id : Int) : lcloud_device :=
  if id < 0 then defaultDevice else ds.getD id.toNat defaultDevice

/-- Read `sector_block[s][b]`. -/
def gridGet (grid : List (List lcloud_block)) (s b : Int) : lcloud_block :=
  if s < 0 ∨ b < 0 then defaultBlock
  else (grid.getD s.toNat []).getD b.toNat defaultBlock

/-- Write `sector_block[s][b]`. -/
def gridSet (grid : List (List lcloud_block)) (s b : Int)
    (blk : lcloud_block) : List (List lcloud_block) :=
  if s < 0 ∨ b < 0 then grid
  else grid.set s.toNat ((grid.getD s.toNat []).set b.toNat blk)

/-- Write one block descriptor of one device, leaving everything else
unchanged. -/
def devicesSetBlock (ds : List lcloud_device) (id s b : Int)
    (blk : lcloud_block) : List lcloud_device :=
  if id < 0 then ds
  else ds.set id.toNat
    { devGet ds id with
      sector_block := gridSet (devGet ds id).sector_block s b blk }

/-- The block descriptor of device `id`, sector `i`, block `j`. -/
def cellAt (ds : List lcloud_device) (id i j : Nat) : lcloud_block :=
  gridGet (devGet ds (id : Int)).sector_block (i : Int) (j : Int)

/-- Read a 256-byte block from the modelled remote store (blocks start
zeroed). -/
def storeGet (st : List ((Int × Int × Int) × List Nat))
    (k : Int × Int × Int) : List Nat :=
  match st.find? (fun e => e.1 == k) with
  | some e => e.2
  | none => List.replicate 256 0

/-- Write a 256-byte block to the modelled remote store. -/
def storeSet (st : List ((Int × Int × Int) × List Nat))
    (k : Int × Int × Int) (v : List Nat) :
    List ((Int × Int × Int) × List Nat) :=
  (k, v) :: st

/-- The acknowledgement check repeated at every bus call site of
`lcloud_filesys.c`: the operation proceeds iff the extracted B0 equals 1,
B1 equals 1, and C0 echoes the request opcode
(`(b0 != 1) || (b1 != 1) || (c0 != op)` fails the operation). -/
def lc_ack_ok (rfrm : Nat) (opcode : Nat) : Bool :=
  (extract_lcloud_registers rfrm).1 == 1 &&
  (extract_lcloud_registers rfrm).2.1 == 1 &&
  (extract_lcloud_registers rfrm).2.2.1 == opcode

/-- Modelled from the spec: a response frame of the remote storage
controller (not in the repository): acknowledgement subfields B0 = B1 = 1
(the values the driver's checks accept), C0 echoing the request opcode,
and D0/D1 carrying the response data. -/
def busAck (op d0 d1 : Nat) : Nat :=
  create_lcloud_registers 1 1 op 0 0 d0 d1

/-- Modelled from the spec: the probe bitmask the controller reports (bit
i set = device i present).  One device, id 0, in this model. -/
def LC_PROBE_MASK : Nat := 1

/-- Modelled from the spec: sector count each modelled device reports. -/
def LC_DEV_SECTORS : Nat := 2

/-- Modelled from the spec: block count each modelled device reports. -/
def LC_DEV_BLOCKS : Nat := 4

/-- A freshly initialised sector × block grid: all descriptors unused with
−1 (none) successor links, as built by `device_power_on`. -/
def initGrid (sectors blocks : Nat) : List (List lcloud_block) :=
  List.replicate sectors (List.replicate blocks ⟨-1, -1, -1, 0⟩)

/-- The device-table construction loop of `device_power_on`: walks the 16
probe bits LSB first; a set bit yields an initialised device (grid from the
modelled init response), a clear bit only sets `dev_id = -1`. -/
def build_devices (probe id count : Nat) : List lcloud_device :=
  match count with
  | 0 => []
  | count + 1 =>
    (if probe % 2 = 1 then
      { sector_block := initGrid LC_DEV_SECTORS LC_DEV_BLOCKS,
        sectors := (LC_DEV_SECTORS : Int), blocks := (LC_DEV_BLOCKS : Int),
        dev_id := (id : Int) }
     else { defaultDevice with dev_id := -1 }) ::
    build_devices (probe / 2) (id + 1) count

/-- `device_power_on` from `lcloud_filesys.c`, run against the modelled
controller: sends power-on, probe and per-device init requests, checks
each acknowledgement exactly as the C does, builds the device table from
the probe mask and the init responses, and initialises the cache with
`LC_CACHE_MAXBLOCKS` lines. -/
def device_power_on_model : Option (List lcloud_device × CacheGlobals) :=
  if lc_ack_ok (busAck LC_POWER_ON 0 0) LC_POWER_ON then
    if lc_ack_ok (busAck LC_DEVPROBE LC_PROBE_MASK 0) LC_DEVPROBE then
      if lc_ack_ok (busAck LC_DEVINIT LC_DEV_SECTORS LC_DEV_BLOCKS)
          LC_DEVINIT then
        some
          (build_devices
            (extract_lcloud_registers
              (busAck LC_DEVPROBE LC_PROBE_MASK 0)).2.2.2.2.2.1 0 16,
           lcloud_initcache LC_CACHE_MAXBLOCKS)
      else none
    else none
  else none

/-- The device-init loop of `device_power_on` with the controller's
response frames supplied as an explicit oracle list: for each set probe
bit it consumes one response and checks it as the C does; a missing
response stands for a transport failure (`client_lcloud_bus_request`
returning −1).  Returns the unconsumed oracle on success. -/
def initLoop (probe count : Nat) (resps : List Nat) : Option (List Nat) :=
  match count with
  | 0 => some resps
  | count + 1 =>
    if probe % 2 = 1 then
      match resps with
      | [] => none
      | r :: rest =>
        if lc_ack_ok r LC_DEVINIT then initLoop (probe / 2) count rest
        else none
    else initLoop (probe / 2) count resps

/-- `device_power_on` from `lcloud_filesys.c` with all response frames
supplied as an oracle list: the power-on response, then the probe response
(whose extracted D0 is the device bitmask), then one response per set
probe bit; each response is checked exactly as the C does
(`b0 != 1 || b1 != 1 || c0 != opcode` is fatal). -/
def device_power_on_resp : List Nat → Option (List Nat)
  | r1 :: r2 :: rest =>
    if lc_ack_ok r1 LC_POWER_ON then
      if lc_ack_ok r2 LC_DEVPROBE then
        initLoop (extract_lcloud_registers r2).2.2.2.2.2.1 16 rest
      else none
    else none
  | _ => none

/-- `validate_fh` from `lcloud_filesys.c`: a handle is invalid when it
exceeds the `file_handle` counter or its file is not open; otherwise the
file is returned. -/
def validate_fh (st : FSState) (fh : Int) : Option lcloud_file :=
  if fh > st.file_handle then none
  else if (fileGet st.files fh).opened = 0 then none
  else some (fileGet st.files fh)

/-- First free descriptor in one sector (scan by block index). -/
def findFreeRow : List lcloud_block → Option Nat
  | [] => none
  | b :: bs =>
    if b.used = 0 then some 0
    else
      match findFreeRow bs with
      | none => none
      | some j => some (j + 1)

/-- First free descriptor in one device's grid (sectors outer, blocks
inner). -/
def findFreeGrid : List (List lcloud_block) → Option (Nat × Nat)
  | [] => none
  | row :: rows =>
    match findFreeRow row with
    | some j => some (0, j)
    | none =>
      match findFreeGrid rows with
      | none => none
      | some (i, j) => some (i + 1, j)

/-- The device scan of `allocate_block`: id order, skipping devices with
`dev_id == -1`.  (The C bounds the inner loops by the stored
sector/block counts; in every reachable state those equal the grid's
dimensions, over which this model iterates.) -/
def allocate_block_aux : List lcloud_device → Nat → Option (Nat × Nat × Nat)
  | [], _ => none
  | d :: ds, id =>
    if d.dev_id ≠ -1 then
      match findFreeGrid d.sector_block with
      | some (i, j) => some (id, i, j)
      | none => allocate_block_aux ds (id + 1)
    else allocate_block_aux ds (id + 1)

/-- `allocate_block` from `lcloud_filesys.c`: returns the first (device id,
sector, block) whose descriptor is unused among present devices, marking
it used; fails (−1 in the C, `none` here) when every descriptor on every
present device is used. -/
def allocate_block (ds : List lcloud_device) :
    Option ((Nat × Nat × Nat) × List lcloud_device) :=
  match allocate_block_aux ds 0 with
  | none => none
  | some (id, i, j) =>
    some ((id, i, j),
      devicesSetBlock ds id i j { cellAt ds id i j with used := 1 })

/-- The chain walk of `get_block`: a do-while loop advancing 256 bytes per
step until the step total exceeds the file position; fails on a −1
successor; fuel bounds the recursion (always sufficient at call sites). -/
def get_block_loop (devices : List lcloud_device) (pos : Int) :
    Nat → Int → Int → lcloud_device → Int → Option (Int × Int × Int)
  | 0, _, _, _, _ => none
  | fuel + 1, next_sec, next_blk, next_dev, i =>
    if next_sec = -1 ∨ next_blk = -1 then none
    else
      let cell := gridGet next_dev.sector_block next_sec next_blk
      if i + 256 ≤ pos then
        get_block_loop devices pos fuel cell.next_sector cell.next_block
          (devGet devices cell.next_dev_id) (i + 256)
      else some (next_dev.dev_id, next_sec, next_blk)

/-- `get_block` from `lcloud_filesys.c`: walks the file's chain from its
first block to the block containing the file position, returning its
(device id, sector, block). -/
def get_block (devices : List lcloud_device) (file : lcloud_file) :
    Option (Int × Int × Int) :=
  get_block_loop devices file.pos (file.pos.toNat / 256 + 2)
    file.sector file.block (devGet devices file.dev_id) 0

/-- `add_block` from `lcloud_filesys.c`: walks to the file's last block
(position backed up by one, as the C does), allocates a fresh block, and
links the last block's descriptor to it. -/
def add_block (devices : List lcloud_device) (file : lcloud_file) :
    Option (List lcloud_device) :=
  match get_block devices { file with pos := file.pos - 1 } with
  | none => none
  | some (dev_id, sec, blk) =>
    match allocate_block devices with
    | none => none
    | some ((nid, nsec, nblk), devices2) =>
      some (devicesSetBlock devices2 dev_id sec blk
        { gridGet (devGet devices2 dev_id).sector_block sec blk with
          next_sector := (nsec : Int)
          next_block := (nblk : Int)
          next_dev_id := (nid : Int) })

/-- `memcpy(&dst[off], src, n)` over byte lists. -/
def memcpyAt (dst : List Nat) (off : Nat) (src : List Nat) (n : Nat) :
    List Nat :=
  dst.take off ++ src.take n ++ dst.drop (off + n)

/-- The 32-bit two's-complement value of a natural number: the C
truncation of `size_t` to `int` in `file.pos = off`. -/
def int32ofNat (n : Nat) : Int :=
  if n % 2 ^ 32 < 2 ^ 31 then ((n % 2 ^ 32 : Nat) : Int)
  else ((n % 2 ^ 32 : Nat) : Int) - 2 ^ 32

/-- `lcseek` from `lcloud_filesys.c`: validates the handle; the offset
parameter is a C `size_t`, so a negative argument arrives wrapped modulo
2^64 (making the C's `off < 0` test dead code); fails when the wrapped
offset exceeds the file size; otherwise stores the offset as the position
(truncated to `int`) and returns the new position. -/
def lcseek (st : FSState) (fh : Int) (off : Int) : Int × FSState :=
  match validate_fh st fh with
  | none => (-1, st)
  | some file =>
    if ((off % (2 ^ 64 : Int)).toNat) > ((file.size % (2 ^ 64 : Int)).toNat)
    then (-1, st)
    else
      let file2 := { file with pos := int32ofNat (off % (2 ^ 64 : Int)).toNat }
      (file2.pos, { st with files := filesSet st.files fh.toNat file2 })

/-- One iteration chunk of the `lcread` block loop (lines 543–592 of
`lcloud_filesys.c`): locate the block, fetch its 256 bytes from the cache
(hit) or from the modelled controller's store (miss — a plain read does
not populate the cache), then copy the sub-range selected by the four
position cases, accumulating into the caller's buffer. -/
def lcread_loop (st : FSState) (file : lcloud_file) (len i : Nat)
    (acc : List Nat) : Nat → Option (Int × List Nat × lcloud_file × FSState)
  | 0 => none
  | fuel + 1 =>
    if i < len then
      match get_block st.devices file with
      | none => some (-1, acc, file, st)
      | some (dev_id, sec, blk) =>
        let fetch := lcloud_getcache st.cache dev_id sec blk
        let st2 : FSState := { st with cache := fetch.2 }
        let temp : List Nat :=
          match fetch.1 with
          | some cbuf => cbuf
          | none => storeGet st.store (dev_id, sec, blk)
        if lc_ack_ok (busAck LC_BLOCK_XFER 0 0) LC_BLOCK_XFER then
          let pib : Nat := (file.pos % 256).toNat
          if pib = 0 then
            if len - i < 256 then
              lcread_loop st2
                { file with pos := file.pos + ((len - i : Nat) : Int) }
                len len (acc ++ temp.take (len - i)) fuel
            else
              lcread_loop st2 { file with pos := file.pos + 256 }
                len (i + 256) (acc ++ temp.take 256) fuel
          else
            if len + pib - i < 256 then
              lcread_loop st2
                { file with pos := file.pos + ((len - i : Nat) : Int) }
                len len (acc ++ (temp.drop pib).take (len - i)) fuel
            else
              lcread_loop st2
                { file with pos := file.pos + ((256 - pib : Nat) : Int) }
                len (i + (256 - pib))
                (acc ++ (temp.drop pib).take (256 - pib)) fuel
        else some (-1, acc, file, st2)
    else some (len, acc, file, st)

/-- `lcread` from `lcloud_filesys.c`: validates the handle, returns 0 for
an empty file, clamps the length to the bytes remaining before end of
file, runs the block loop, and on success stores the advanced file back
into the table and returns the (clamped) length together with the bytes
read. -/
def lcread (st : FSState) (fh : Int) (len0 : Nat) (fuel : Nat) :
    Option (Int × List Nat × FSState) :=
  match validate_fh st fh with
  | none => some (-1, [], st)
  | some file =>
    if file.size = 0 then some (0, [], st)
    else
      let len : Nat :=
        if file.pos + (len0 : Int) > file.size then
          (file.size - file.pos).toNat
        else len0
      match lcread_loop st file len 0 [] fuel with
      | none => none
      | some (ret, buf, file2, st2) =>
        if ret = -1 then some (-1, buf, st2)
        else
          some (ret, buf,
            { st2 with files := filesSet st2.files fh.toNat file2 })

/-- The four-way splice of the `lcwrite` block loop (lines 636–659 of
`lcloud_filesys.c`): copies the caller's bytes into the re-read block at
the block offset, returning the updated 256-byte block, the advanced file
position, and the advanced loop index, for the four
begin/middle-of-block × to-middle/to-end cases. -/
def lcwriteSplice (temp0 buf : List Nat) (pos : Int) (len i pib : Nat) :
    List Nat × Int × Nat :=
  if pib = 0 then
    if len - i < 256 then
      (memcpyAt temp0 0 (buf.drop i) (len - i),
        pos + ((len - i : Nat) : Int), len)
    else
      (memcpyAt temp0 0 (buf.drop i) 256, pos + 256, i + 256)
  else
    if len + pib - i < 256 then
      (memcpyAt temp0 pib (buf.drop i) (len - i),
        pos + ((len - i : Nat) : Int), len)
    else
      (memcpyAt temp0 pib (buf.drop i) (256 - pib),
        pos + ((256 - pib : Nat) : Int), i + (256 - pib))

/-- One iteration chunk of the `lcwrite` block loop (lines 625–684 of
`lcloud_filesys.c`): locate the block, re-read its current contents via a
seek-then-read round trip, splice the caller's bytes in at the block
offset, send the whole 256-byte block to the modelled controller
(checking the acknowledgement as the C does), write it through to the
cache, extend the size when writing at end of file (appending a chain
block on a 256-byte boundary), and store the file back each iteration. -/
def lcwrite_loop (st : FSState) (file : lcloud_file) (fh : Int)
    (buf : List Nat) (len i : Nat) : Nat → Option (Int × FSState)
  | 0 => none
  | fuel + 1 =>
    if i < len then
      match get_block st.devices file with
      | none => some (-1, st)
      | some (dev_id, sec, blk) =>
        let pib : Nat := (file.pos % 256).toNat
        let st1 := (lcseek st fh (file.pos - (pib : Int))).2
        match lcread st1 fh 256 4 with
        | none => none
        | some (_, rbuf, st2) =>
          let temp0 : List Nat := rbuf ++ List.replicate (256 - rbuf.length) 0
          let step := lcwriteSplice temp0 buf file.pos len i pib
          if lc_ack_ok (busAck LC_BLOCK_XFER 0 0) LC_BLOCK_XFER then
            let st3 : FSState :=
              { st2 with store := storeSet st2.store (dev_id, sec, blk) step.1 }
            match lcloud_putcache st3.cache dev_id sec blk step.1 with
            | none => none
            | some cache2 =>
              let st4 : FSState := { st3 with cache := cache2 }
              let file2 := { file with pos := step.2.1 }
              if file2.pos ≥ file2.size then
                let file3 := { file2 with size := file2.pos }
                if file3.pos % 256 = 0 then
                  match add_block st4.devices file3 with
                  | none => some (-1, st4)
                  | some devs2 =>
                    lcwrite_loop
                      { st4 with
                        devices := devs2
                        files := filesSet st4.files fh.toNat file3 }
                      file3 fh buf len step.2.2 fuel
                else
                  lcwrite_loop
                    { st4 with files := filesSet st4.files fh.toNat file3 }
                    file3 fh buf len step.2.2 fuel
              else
                lcwrite_loop
                  { st4 with files := filesSet st4.files fh.toNat file2 }
                  file2 fh buf len step.2.2 fuel
          else some (-1, st2)
    else some (len, st)

/-- `lcwrite` from `lcloud_filesys.c`: validates the handle, allocates the
file's first block when its size is still 0, and runs the block loop over
the caller's buffer.  Returns the byte count written (the full length) on
success. -/
def lcwrite (st : FSState) (fh : Int) (buf : List Nat) (fuel : Nat) :
    Option (Int × FSState) :=
  match validate_fh st fh with
  | none => some (-1, st)
  | some file =>
    if file.size = 0 then
      match allocate_block st.devices with
      | none => some (-1, st)
      | some ((id, s, b), devs2) =>
        lcwrite_loop { st with devices := devs2 }
          { file with
            dev_id := (id : Int)
            sector := (s : Int)
            block := (b : Int) }
          fh buf buf.length 0 fuel
    else lcwrite_loop st file fh buf buf.length 0 fuel

/-- The `lcopen` lookup loop: `files[fh].name == path` compares the
address of the stored name array — determined by the slot index — with
the argument pointer, not the characters. -/
def lcopen_scan (path : Ptr) : Nat → Nat → Option Nat
  | _, 0 => none
  | fh, n + 1 =>
    if path = Ptr.fileNameField fh then some fh
    else lcopen_scan path (fh + 1) n

/-- The body of `lcopen` after the power-on check: looks the path up by
pointer identity among slots 0..file_handle−1; a hit on an open file
fails, a hit on a closed file reopens it at position 0; otherwise a new
file is created (name content truncated to 259 characters, size 0,
first-block fields left unassigned) at index `file_handle`, which is then
incremented, and the old counter value is returned as the handle. -/
def lcopen_body (st : FSState) (path : Ptr) (content : List Nat) :
    Int × FSState :=
  match lcopen_scan path 0 st.file_handle.toNat with
  | some fh =>
    if (fileGet st.files (fh : Int)).opened = 1 then (-1, st)
    else
      ((fh : Int),
       { st with
         files := filesSet st.files fh
           { fileGet st.files (fh : Int) with pos := 0, opened := 1 } })
  | none =>
    ((st.file_handle),
     { st with
       file_handle := st.file_handle + 1
       files := filesSet st.files st.file_handle.toNat
         { fh := st.file_handle + 1, name := content.take 259, pos := 0,
           size := 0, block := -1, sector := -1, dev_id := -1, opened := 1 } })

/-- `lcopen` from `lcloud_filesys.c`: powers the devices on (and
initialises the cache) exactly when the `file_handle` counter is still 0,
then runs the lookup/create body.  The instrumentation counter
`power_ons` records each `device_power_on` invocation. -/
def lcopen (st : FSState) (path : Ptr) (content : List Nat) :
    Int × FSState :=
  if st.file_handle = 0 then
    match device_power_on_model with
    | none => (-1, st)
    | some (devs, cache) =>
      lcopen_body
        { st with
          devices := devs
          cache := cache
          power_ons := st.power_ons + 1 }
        path content
  else lcopen_body st path content

/-- `lcclose` from `lcloud_filesys.c`: validates the handle (which already
fails on a closed file, making the second `opened` check dead code) and
clears the opened flag. -/
def lcclose (st : FSState) (fh : Int) : Int × FSState :=
  match validate_fh st fh with
  | none => (-1, st)
  | some file =>
    if file.opened = 0 then (-1, st)
    else
      (0,
       { st with
         files := filesSet st.files fh.toNat { file with opened := 0 } })

/-- The close-everything loop of `lcshutdown`: closes each still-open file
among slots 0..file_handle−1. -/
def closeLoop : FSState → Nat → Nat → Int × FSState
  | st, _, 0 => (0, st)
  | st, i, n + 1 =>
    if (fileGet st.files (i : Int)).opened = 1 then
      if (lcclose st (i : Int)).1 = -1 then (-1, (lcclose st (i : Int)).2)
      else closeLoop (lcclose st (i : Int)).2 (i + 1) n
    else closeLoop st (i + 1) n

/-- `lcshutdown` from `lcloud_filesys.c`: closes every open file, frees
each initialised device's descriptor grid (`sector_block = NULL`, the
`dev_id` and counts remain), sends the power-off request to the modelled
controller (checking the acknowledgement as the C does), and runs the
cache teardown.  The `file_handle` counter is not reset. -/
def lcshutdown (st : FSState) : Int × FSState :=
  if (closeLoop st 0 st.file_handle.toNat).1 = -1 then
    (-1, (closeLoop st 0 st.file_handle.toNat).2)
  else
    let st2 : FSState :=
      { (closeLoop st 0 st.file_handle.toNat).2 with
        devices := (closeLoop st 0 st.file_handle.toNat).2.devices.map
          (fun d => if d.dev_id ≠ -1 then { d with sector_block := [] }
            else d) }
    if lc_ack_ok (busAck LC_POWER_OFF 0 0) LC_POWER_OFF then (0, st2)
    else (-1, st2)

/-- One driver call, as observed at the programmatic surface. -/
inductive LcOp where
  | doOpen (path : Ptr) (content : List Nat)
  | doRead (fh : Int) (len : Nat)
  | doWrite (fh : Int) (buf : List Nat)
  | doSeek (fh : Int) (off : Int)
  | doClose (fh : Int)
  | doShutdown
deriving DecidableEq

/-- Apply one driver call to the process state (fuel chosen large enough
for the loops; a fuel-exhausted model run leaves the state unchanged). -/
def lcstep (st : FSState) : LcOp → FSState
  | LcOp.doOpen p c => (lcopen st p c).2
  | LcOp.doRead fh len =>
    match lcread st fh len (len + 4) with
    | none => st
    | some r => r.2.2
  | LcOp.doWrite fh buf =>
    match lcwrite st fh buf (buf.length + 4) with
    | none => st
    | some r => r.2
  | LcOp.doSeek fh off => (lcseek st fh off).2
  | LcOp.doClose fh => (lcclose st fh).2
  | LcOp.doShutdown => (lcshutdown st).2

/-- Run a sequence of driver calls. -/
def lcrun (st : FSState) : List LcOp → FSState
  | [] => st
  | o :: ops => lcrun (lcstep st o) ops

/-- The state of a freshly started process: zeroed globals, nothing
powered on. -/
def fsInitial : FSState :=
  { file_handle := 0, files := [], devices := [],
    cache := { LRU_cache := [], hits := 0, misses := 0, cache_time := 0 },
    store := [], power_ons := 0 }

/-- A block descriptor that `allocate_block` may return: on a present
device (dev_id ≠ −1), within the grid, with the used flag clear. -/
def blockFree (ds : List lcloud_device) (id i j : Nat) : Prop :=
  (ds.getD id defaultDevice).dev_id ≠ -1 ∧
  i < (ds.getD id defaultDevice).sector_block.length ∧
  j < ((ds.getD id defaultDevice).sector_block.getD i []).length ∧
  (((ds.getD id defaultDevice).sector_block.getD i []).getD j
    defaultBlock).used = 0

/-- A concrete one-device table whose first descriptor is used and second
free, used as a witness input. -/
def allocWitnessDevices : List lcloud_device :=
  [{ sector_block := [[⟨-1, -1, -1, 1⟩, ⟨-1, -1, -1, 0⟩]],
     sectors := 1, blocks := 2, dev_id := 0 }]

/-- The C1 run, step 1: open a fresh path in a fresh process. -/
def c1_open : Int × FSState :=
  lcopen fsInitial (Ptr.external 0) [102, 105, 108, 101]

/-- The C1 run, step 2: write the two bytes B = [0x00, 0x41] at offset 0
(the file position is already 0). -/
def c1_write : Option (Int × FSState) := lcwrite c1_open.2 0 [0, 65] 8

/-- The C1 run, step 3: seek back to offset 0 and read 2 bytes. -/
def c1_readback : Option (Int × List Nat × FSState) :=
  match c1_write with
  | none => none
  | some (_, st) => lcread (lcseek st 0 0).2 0 2 8

/-- The C3 run, step 1: open the path "foo" (a caller-constructed string
at one address). -/
def c3_open1 : Int × FSState :=
  lcopen fsInitial (Ptr.external 0) [102, 111, 111]

/-- The C3 run, step 2: open a separately constructed but equal string
"foo" (same characters, different address) while the first file is still
open. -/
def c3_open2 : Int × FSState :=
  lcopen c3_open1.2 (Ptr.external 1) [102, 111, 111]

/-- A concrete state with one open file of size 5 at position 2, used as a
witness input. -/
def seekWitnessState : FSState :=
  { file_handle := 1,
    files := [⟨1, [97], 2, 5, 0, 0, 0, 1⟩],
    devices := [],
    cache := { LRU_cache := [], hits := 0, misses := 0, cache_time := 0 },
    store := [], power_ons := 1 }

theorem create_lcloud_registers_eq_arith (B0 B1 C0 C1 C2 D0 D1 : Nat) :
    create_lcloud_registers B0 B1 C0 C1 C2 D0 D1 =
      (B0 % 16) * 2 ^ 60 + (B1 % 16) * 2 ^ 56 + (C0 % 256) * 2 ^ 48 +
      (C1 % 256) * 2 ^ 40 + (C2 % 256) * 2 ^ 32 + (D0 % 65536) * 2 ^ 16 +
      (D1 % 65536) := by
  have hmask4 : ∀ x : Nat, x &&& 0xf = x % 2 ^ 4 := fun x =>
    Nat.and_pow_two_sub_one_eq_mod x 4
  have hmask8 : ∀ x : Nat, x &&& 0xff = x % 2 ^ 8 := fun x =>
    Nat.and_pow_two_sub_one_eq_mod x 8
  have hmask16 : ∀ x : Nat, x &&& 0xffff = x % 2 ^ 16 := fun x =>
    Nat.and_pow_two_sub_one_eq_mod x 16
  unfold create_lcloud_registers
  rw [hmask4, hmask4, hmask8, hmask8, hmask8, hmask16, hmask16]
  rw [Nat.shiftLeft_eq, Nat.shiftLeft_eq, Nat.shiftLeft_eq, Nat.shiftLeft_eq,
    Nat.shiftLeft_eq, Nat.shiftLeft_eq]
  have h16 : D1 % 2 ^ 16 < 2 ^ 16 := Nat.mod_lt _ (by norm_num)
  have h16b : D0 % 2 ^ 16 < 2 ^ 16 := Nat.mod_lt _ (by norm_num)
  have h8a : C2 % 2 ^ 8 < 2 ^ 8 := Nat.mod_lt _ (by norm_num)
  have h8b : C1 % 2 ^ 8 < 2 ^ 8 := Nat.mod_lt _ (by norm_num)
  have h8c : C0 % 2 ^ 8 < 2 ^ 8 := Nat.mod_lt _ (by norm_num)
  have h4a : B1 % 2 ^ 4 < 2 ^ 4 := Nat.mod_lt _ (by norm_num)
  -- fold the ors into sums from the least-significant end upwards
  simp only [Nat.or_assoc]
  have hor1 : (D0 % 2 ^ 16) * 2 ^ 16 ||| D1 % 2 ^ 16
      = (D0 % 2 ^ 16) * 2 ^ 16 + D1 % 2 ^ 16 := by
    rw [Nat.mul_comm, ← Nat.mul_add_lt_is_or h16]
  rw [hor1]
  have hsum32 : (D0 % 2 ^ 16) * 2 ^ 16 + D1 % 2 ^ 16 < 2 ^ 32 := by
    have := @Nat.mod_lt D0 (2 ^ 16) (by norm_num)
    nlinarith
  have hor2 : (C2 % 2 ^ 8) * 2 ^ 32 ||| ((D0 % 2 ^ 16) * 2 ^ 16 + D1 % 2 ^ 16)
      = (C2 % 2 ^ 8) * 2 ^ 32 + ((D0 % 2 ^ 16) * 2 ^ 16 + D1 % 2 ^ 16) := by
    rw [Nat.mul_comm, ← Nat.mul_add_lt_is_or hsum32]
  rw [hor2]
  have hsum40 : (C2 % 2 ^ 8) * 2 ^ 32 + ((D0 % 2 ^ 16) * 2 ^ 16 + D1 % 2 ^ 16)
      < 2 ^ 40 := by nlinarith [hsum32, h8a]
  have hor3 : (C1 % 2 ^ 8) * 2 ^ 40 |||
      ((C2 % 2 ^ 8) * 2 ^ 32 + ((D0 % 2 ^ 16) * 2 ^ 16 + D1 % 2 ^ 16))
      = (C1 % 2 ^ 8) * 2 ^ 40 +
      ((C2 % 2 ^ 8) * 2 ^ 32 + ((D0 % 2 ^ 16) * 2 ^ 16 + D1 % 2 ^ 16)) := by
    rw [Nat.mul_comm, ← Nat.mul_add_lt_is_or hsum40]
  rw [hor3]
  have hsum48 : (C1 % 2 ^ 8) * 2 ^ 40 +
      ((C2 % 2 ^ 8) * 2 ^ 32 + ((D0 % 2 ^ 16) * 2 ^ 16 + D1 % 2 ^ 16))
      < 2 ^ 48 := by nlinarith [hsum40, h8b]
  have hor4 : (C0 % 2 ^ 8) * 2 ^ 48 |||
      ((C1 % 2 ^ 8) * 2 ^ 40 +
        ((C2 % 2 ^ 8) * 2 ^ 32 + ((D0 % 2 ^ 16) * 2 ^ 16 + D1 % 2 ^ 16)))
      = (C0 % 2 ^ 8) * 2 ^ 48 +
      ((C1 % 2 ^ 8) * 2 ^ 40 +
        ((C2 % 2 ^ 8) * 2 ^ 32 + ((D0 % 2 ^ 16) * 2 ^ 16 + D1 % 2 ^ 16))) := by
    rw [Nat.mul_comm, ← Nat.mul_add_lt_is_or hsum48]
  rw [hor4]
  have hsum56 : (C0 % 2 ^ 8) * 2 ^ 48 +
      ((C1 % 2 ^ 8) * 2 ^ 40 +
        ((C2 % 2 ^ 8) * 2 ^ 32 + ((D0 % 2 ^ 16) * 2 ^ 16 + D1 % 2 ^ 16)))
      < 2 ^ 56 := by nlinarith [hsum48, h8c]
  have hor5 : (B1 % 2 ^ 4) * 2 ^ 56 |||
      ((C0 % 2 ^ 8) * 2 ^ 48 +
        ((C1 % 2 ^ 8) * 2 ^ 40 +
          ((C2 % 2 ^ 8) * 2 ^ 32 + ((D0 % 2 ^ 16) * 2 ^ 16 + D1 % 2 ^ 16))))
      = (B1 % 2 ^ 4) * 2 ^ 56 +
      ((C0 % 2 ^ 8) * 2 ^ 48 +
        ((C1 % 2 ^ 8) * 2 ^ 40 +
          ((C2 % 2 ^ 8) * 2 ^ 32 + ((D0 % 2 ^ 16) * 2 ^ 16 + D1 % 2 ^ 16)))) := by
    rw [Nat.mul_comm, ← Nat.mul_add_lt_is_or hsum56]
  rw [hor5]
  have hsum60 : (B1 % 2 ^ 4) * 2 ^ 56 +
      ((C0 % 2 ^ 8) * 2 ^ 48 +
        ((C1 % 2 ^ 8) * 2 ^ 40 +
          ((C2 % 2 ^ 8) * 2 ^ 32 + ((D0 % 2 ^ 16) * 2 ^ 16 + D1 % 2 ^ 16))))
      < 2 ^ 60 := by nlinarith [hsum56, h4a]
  have hor6 : (B0 % 2 ^ 4) * 2 ^ 60 |||
      ((B1 % 2 ^ 4) * 2 ^ 56 +
        ((C0 % 2 ^ 8) * 2 ^ 48 +
          ((C1 % 2 ^ 8) * 2 ^ 40 +
            ((C2 % 2 ^ 8) * 2 ^ 32 + ((D0 % 2 ^ 16) * 2 ^ 16 + D1 % 2 ^ 16)))))
      = (B0 % 2 ^ 4) * 2 ^ 60 +
      ((B1 % 2 ^ 4) * 2 ^ 56 +
        ((C0 % 2 ^ 8) * 2 ^ 48 +
          ((C1 % 2 ^ 8) * 2 ^ 40 +
            ((C2 % 2 ^ 8) * 2 ^ 32 + ((D0 % 2 ^ 16) * 2 ^ 16 + D1 % 2 ^ 16))))) := by
    rw [Nat.mul_comm, ← Nat.mul_add_lt_is_or hsum60]
  rw [hor6]
  norm_num
  ring

theorem extract_lcloud_registers_eq_arith (resp : Nat) :
    extract_lcloud_registers resp =
      (resp / 2 ^ 60 % 16, resp / 2 ^ 56 % 16, resp / 2 ^ 48 % 256,
       resp / 2 ^ 40 % 256, resp / 2 ^ 32 % 256, resp / 2 ^ 16 % 65536,
       resp % 65536) := by
  unfold extract_lcloud_registers
  have hmask4 : ∀ x : Nat, x &&& 0xf = x % 2 ^ 4 := fun x =>
    Nat.and_pow_two_sub_one_eq_mod x 4
  have hmask8 : ∀ x : Nat, x &&& 0xff = x % 2 ^ 8 := fun x =>
    Nat.and_pow_two_sub_one_eq_mod x 8
  have hmask16 : ∀ x : Nat, x &&& 0xffff = x % 2 ^ 16 := fun x =>
    Nat.and_pow_two_sub_one_eq_mod x 16
  simp only [hmask4, hmask8, hmask16, Nat.shiftRight_eq_div_pow]
  norm_num [Nat.div_div_eq_div_mul]

/-- C2: register codec round trip in both directions.  For every field
tuple with b0<16, b1<16, c0<256, c1<256, c2<256, d0<65536, d1<65536,
decoding the encoded 64-bit frame reproduces the tuple exactly; for every
64-bit word x, encoding the decoded fields reproduces x; and every decoded
field is masked to its declared width (4/4/8/8/8/16/16 bits), never
sign-extended. -/
theorem codec_round_trip :
    (∀ b0 b1 c0 c1 c2 d0 d1 : Nat, b0 < 16 → b1 < 16 → c0 < 256 →
      c1 < 256 → c2 < 256 → d0 < 65536 → d1 < 65536 →
      extract_lcloud_registers (create_lcloud_registers b0 b1 c0 c1 c2 d0 d1)
        = (b0, b1, c0, c1, c2, d0, d1)) ∧
    (∀ x : Nat, x < 2 ^ 64 →
      create_lcloud_registers (extract_lcloud_registers x).1
        (extract_lcloud_registers x).2.1 (extract_lcloud_registers x).2.2.1
        (extract_lcloud_registers x).2.2.2.1
        (extract_lcloud_registers x).2.2.2.2.1
        (extract_lcloud_registers x).2.2.2.2.2.1
        (extract_lcloud_registers x).2.2.2.2.2.2 = x) ∧
    (∀ x : Nat,
      (extract_lcloud_registers x).1 < 16 ∧
      (extract_lcloud_registers x).2.1 < 16 ∧
      (extract_lcloud_registers x).2.2.1 < 256 ∧
      (extract_lcloud_registers x).2.2.2.1 < 256 ∧
      (extract_lcloud_registers x).2.2.2.2.1 < 256 ∧
      (extract_lcloud_registers x).2.2.2.2.2.1 < 65536 ∧
      (extract_lcloud_registers x).2.2.2.2.2.2 < 65536) := by
  refine ⟨?_, ?_, ?_⟩
  · intro b0 b1 c0 c1 c2 d0 d1 h0 h1 h2 h3 h4 h5 h6
    rw [create_lcloud_registers_eq_arith, extract_lcloud_registers_eq_arith]
    refine Prod.ext ?_ (Prod.ext ?_ (Prod.ext ?_ (Prod.ext ?_ (Prod.ext ?_
      (Prod.ext ?_ ?_))))) <;> simp only [] <;> omega
  · intro x hx
    rw [extract_lcloud_registers_eq_arith]
    simp only []
    rw [create_lcloud_registers_eq_arith]
    omega
  · intro x
    rw [extract_lcloud_registers_eq_arith]
    refine ⟨?_, ?_, ?_, ?_, ?_, ?_, ?_⟩ <;> simp only [] <;> omega

/-- Witness for C2 at concrete inputs: the tuple (5, 10, 200, 3, 7, 40000,
123) round-trips through encode/decode, and the 64-bit word 0x123456789abcdef0
round-trips through decode/encode. -/
theorem codec_round_trip_witness :
    extract_lcloud_registers (create_lcloud_registers 5 10 200 3 7 40000 123)
      = (5, 10, 200, 3, 7, 40000, 123) ∧
    create_lcloud_registers
      (extract_lcloud_registers 0x123456789abcdef0).1
      (extract_lcloud_registers 0x123456789abcdef0).2.1
      (extract_lcloud_registers 0x123456789abcdef0).2.2.1
      (extract_lcloud_registers 0x123456789abcdef0).2.2.2.1
      (extract_lcloud_registers 0x123456789abcdef0).2.2.2.2.1
      (extract_lcloud_registers 0x123456789abcdef0).2.2.2.2.2.1
      (extract_lcloud_registers 0x123456789abcdef0).2.2.2.2.2.2
      = 0x123456789abcdef0 :=
  ⟨codec_round_trip.1 5 10 200 3 7 40000 123 (by norm_num) (by norm_num)
      (by norm_num) (by norm_num) (by norm_num) (by norm_num) (by norm_num),
    codec_round_trip.2.1 0x123456789abcdef0 (by norm_num)⟩

/-! ## Cache lemmas -/

theorem getD_set {α : Type} (ls : List α) (i j : Nat) (x d : α) :
    (ls.set i x).getD j d =
      if i = j ∧ j < ls.length then x else ls.getD j d := by
  induction ls generalizing i j with
  | nil => simp
  | cons l ls ih =>
    cases i with
    | zero =>
      cases j with
      | zero => simp
      | succ j => simp
    | succ i =>
      cases j with
      | zero => simp
      | succ j =>
        simp only [List.set_cons_succ, List.getD_cons_succ, ih,
          List.length_cons]
        by_cases h : i = j ∧ j < ls.length
        · rw [if_pos h, if_pos (by omega)]
        · rw [if_neg h, if_neg (by omega)]

theorem getD_replicate {α : Type} (n i : Nat) (x d : α) (h : i < n) :
    (List.replicate n x).getD i d = x := by
  induction n generalizing i with
  | zero => omega
  | succ n ih =>
    cases i with
    | zero => simp [List.replicate]
    | succ i =>
      simp only [List.replicate, List.getD_cons_succ]
      exact ih i (by omega)

theorem getcacheScan_none {did sec blk : Int} :
    ∀ {ls : List lcloud_cache}, getcacheScan did sec blk ls = none ↔
      ∀ i < ls.length, cacheKeyMatches (ls.getD i defaultLine) did sec blk = false
  | [] => by simp [getcacheScan]
  | l :: ls => by
    by_cases hm : cacheKeyMatches l did sec blk
    · rw [getcacheScan, if_pos hm]
      constructor
      · intro h; cases h
      · intro h
        have h0 := h 0 (by simp)
        simp only [List.getD_cons_zero] at h0
        rw [hm] at h0; cases h0
    · cases hsc : getcacheScan did sec blk ls with
      | some m =>
        rw [getcacheScan, if_neg hm, hsc]
        constructor
        · intro h; cases h
        · intro h
          have hnone := (@getcacheScan_none _ _ _ ls).mpr (fun i hi => by
            have := h (i + 1) (by simp; omega)
            simpa using this)
          rw [hsc] at hnone; cases hnone
      | none =>
        rw [getcacheScan, if_neg hm, hsc]
        constructor
        · intro _ i hi
          cases i with
          | zero => simpa using hm
          | succ i =>
            simp only [List.getD_cons_succ]
            exact (@getcacheScan_none _ _ _ ls).mp hsc i (by simpa using hi)
        · intro _; rfl

theorem getcacheScan_some_lt {did sec blk : Int} :
    ∀ {ls : List lcloud_cache} {m : Nat},
      getcacheScan did sec blk ls = some m → m < ls.length
  | [], m => by simp [getcacheScan]
  | l :: ls, m => by
    by_cases hm : cacheKeyMatches l did sec blk
    · rw [getcacheScan, if_pos hm]
      intro h; cases h; simp
    · cases hsc : getcacheScan did sec blk ls with
      | some m0 =>
        rw [getcacheScan, if_neg hm, hsc]
        intro h; cases h
        have := @getcacheScan_some_lt _ _ _ ls _ hsc
        simp only [List.length_cons]; omega
      | none =>
        rw [getcacheScan, if_neg hm, hsc]
        intro h; cases h

theorem putScan_match {did sec blk : Int} :
    ∀ {ls : List lcloud_cache} {m : Nat} (i0 : Nat) (lt : Int) (lr : Option Nat),
      getcacheScan did sec blk ls = some m →
      putScan did sec blk ls i0 lt lr = some (i0 + m)
  | [], m, i0, lt, lr => by simp [getcacheScan]
  | l :: ls, m, i0, lt, lr => by
    by_cases hm : cacheKeyMatches l did sec blk
    · rw [getcacheScan, if_pos hm]
      intro h; cases h
      rw [putScan, if_pos hm]
      rfl
    · cases hsc : getcacheScan did sec blk ls with
      | some m0 =>
        rw [getcacheScan, if_neg hm, hsc]
        intro h; cases h
        rw [putScan, if_neg hm]
        by_cases hlt : l.entry_time < lt
        · rw [if_pos hlt, putScan_match (i0 + 1) l.entry_time (some i0) hsc]
          congr 1; omega
        · rw [if_neg hlt, putScan_match (i0 + 1) lt lr hsc]
          congr 1; omega
      | none =>
        rw [getcacheScan, if_neg hm, hsc]
        intro h; cases h

theorem putScan_no_match {did sec blk : Int} :
    ∀ {ls : List lcloud_cache} (i0 : Nat) (lt : Int) (lr : Option Nat),
      (∀ i < ls.length,
        cacheKeyMatches (ls.getD i defaultLine) did sec blk = false) →
      putScan did sec blk ls i0 lt lr =
        (match minBelow ls lt with
         | none => lr
         | some j => some (i0 + j))
  | [], i0, lt, lr => by intro _; rfl
  | l :: ls, i0, lt, lr => by
    intro hno
    have hl : cacheKeyMatches l did sec blk = false := by
      have := hno 0 (by simp); simpa using this
    have htail : ∀ i < ls.length,
        cacheKeyMatches (ls.getD i defaultLine) did sec blk = false := by
      intro i hi
      have := hno (i + 1) (by simp; omega)
      simpa using this
    have hlne : ¬(cacheKeyMatches l did sec blk = true) := by
      rw [hl]; exact Bool.false_ne_true
    by_cases hlt : l.entry_time < lt
    · rw [putScan, if_neg hlne, if_pos hlt,
        putScan_no_match (i0 + 1) l.entry_time (some i0) htail,
        minBelow, if_pos hlt]
      cases hmb : minBelow ls l.entry_time with
      | none => rfl
      | some j =>
        show some (i0 + 1 + j) = some (i0 + (j + 1))
        congr 1; omega
    · rw [putScan, if_neg hlne, if_neg hlt,
        putScan_no_match (i0 + 1) lt lr htail, minBelow, if_neg hlt]
      cases hmb : minBelow ls lt with
      | none => rfl
      | some j =>
        show some (i0 + 1 + j) = some (i0 + (j + 1))
        congr 1; omega

theorem minBelow_none :
    ∀ {ls : List lcloud_cache} {lt : Int}, minBelow ls lt = none ↔
      ∀ i < ls.length, ¬((ls.getD i defaultLine).entry_time < lt)
  | [], lt => by simp [minBelow]
  | l :: ls, lt => by
    by_cases hlt : l.entry_time < lt
    · cases hmb : minBelow ls l.entry_time with
      | none =>
        rw [minBelow, if_pos hlt, hmb]
        constructor
        · intro h; cases h
        · intro h
          exact absurd hlt (by simpa using h 0 (by simp))
      | some j =>
        rw [minBelow, if_pos hlt, hmb]
        constructor
        · intro h; cases h
        · intro h
          exact absurd hlt (by simpa using h 0 (by simp))
    · cases hmb : minBelow ls lt with
      | some j =>
        rw [minBelow, if_neg hlt, hmb]
        constructor
        · intro h; cases h
        · intro h
          have hnone := (@minBelow_none ls lt).mpr (fun i hi => by
            have := h (i + 1) (by simp; omega)
            simpa using this)
          rw [hmb] at hnone; cases hnone
      | none =>
        rw [minBelow, if_neg hlt, hmb]
        constructor
        · intro _ i hi
          cases i with
          | zero => simpa using hlt
          | succ i =>
            simp only [List.getD_cons_succ]
            exact (@minBelow_none ls _).mp hmb i (by simpa using hi)
        · intro _; rfl

theorem minBelow_some :
    ∀ {ls : List lcloud_cache} {lt : Int} {j : Nat}, minBelow ls lt = some j →
      j < ls.length ∧ (ls.getD j defaultLine).entry_time < lt ∧
        ∀ i < ls.length,
          ¬((ls.getD i defaultLine).entry_time <
            (ls.getD j defaultLine).entry_time)
  | [], lt, j => by intro h; cases h
  | l :: ls, lt, j => by
    by_cases hlt : l.entry_time < lt
    · cases hmb : minBelow ls l.entry_time with
      | none =>
        rw [minBelow, if_pos hlt, hmb]
        intro h; cases h
        refine ⟨by simp, by simpa using hlt, ?_⟩
        intro i hi
        cases i with
        | zero => simp
        | succ i =>
          simp only [List.getD_cons_succ, List.getD_cons_zero]
          exact (minBelow_none.mp hmb) i (by simpa using hi)
      | some j0 =>
        rw [minBelow, if_pos hlt, hmb]
        intro h; cases h
        obtain ⟨hj0, hj0lt, hj0min⟩ := @minBelow_some ls _ _ hmb
        refine ⟨by simp; omega, by simpa using lt_trans hj0lt hlt, ?_⟩
        intro i hi
        cases i with
        | zero =>
          simp only [List.getD_cons_zero, List.getD_cons_succ]
          omega
        | succ i =>
          simp only [List.getD_cons_succ]
          exact hj0min i (by simpa using hi)
    · cases hmb : minBelow ls lt with
      | none =>
        rw [minBelow, if_neg hlt, hmb]
        intro h; cases h
      | some j0 =>
        rw [minBelow, if_neg hlt, hmb]
        intro h; cases h
        obtain ⟨hj0, hj0lt, hj0min⟩ := @minBelow_some ls _ _ hmb
        refine ⟨by simp; omega, by simpa using hj0lt, ?_⟩
        intro i hi
        cases i with
        | zero =>
          simp only [List.getD_cons_zero, List.getD_cons_succ]
          omega
        | succ i =>
          simp only [List.getD_cons_succ]
          exact hj0min i (by simpa using hi)

theorem getcache_preserves_inv (g : CacheGlobals) (did sec blk : Int)
    (h : cacheInv g) : cacheInv (lcloud_getcache g did sec blk).2 := by
  obtain ⟨hlen, hct, hbnd, hdist⟩ := h
  cases hsc : getcacheScan did sec blk g.LRU_cache with
  | none =>
    simp only [lcloud_getcache, hsc]
    refine ⟨by simpa using hlen, ?_, ?_, ?_⟩
    · show (0 : Int) ≤ g.cache_time + 1
      omega
    · intro i hi
      have := hbnd i hi
      constructor
      · exact this.1
      · have h2 := this.2
        simp only [lineTime] at *
        omega
    · exact hdist
  | some m =>
    have hmlt := getcacheScan_some_lt hsc
    simp only [lcloud_getcache, hsc]
    refine ⟨by simpa using hlen, ?_, ?_, ?_⟩
    · show (0 : Int) ≤ g.cache_time + 1
      omega
    · intro i hi
      simp only [List.length_set] at hi
      simp only [lineTime, getD_set]
      by_cases he : m = i ∧ i < g.LRU_cache.length
      · rw [if_pos he]
        constructor <;> simp <;> omega
      · rw [if_neg he]
        have := hbnd i hi
        simp only [lineTime] at this
        constructor
        · exact this.1
        · omega
    · intro i hi j hj hne hnn
      simp only [List.length_set] at hi hj
      simp only [lineTime, getD_set] at hnn ⊢
      by_cases hei : m = i ∧ i < g.LRU_cache.length
      · rw [if_pos hei] at hnn ⊢
        by_cases hej : m = j ∧ j < g.LRU_cache.length
        · exact absurd (hei.1 ▸ hej.1) hne
        · rw [if_neg hej]
          have := (hbnd j hj).2
          simp only [lineTime] at this
          simp only []
          omega
      · rw [if_neg hei] at hnn ⊢
        by_cases hej : m = j ∧ j < g.LRU_cache.length
        · rw [if_pos hej]
          have := (hbnd i hi).2
          simp only [lineTime] at this
          simp only []
          omega
        · rw [if_neg hej]
          have := hdist i hi j hj hne
          simp only [lineTime] at this
          exact this hnn

theorem putScan_some_lt {g : CacheGlobals} {did sec blk : Int} {i : Nat}
    (h : putScan did sec blk g.LRU_cache 0 g.cache_time none = some i) :
    i < g.LRU_cache.length := by
  cases hsc : getcacheScan did sec blk g.LRU_cache with
  | some m =>
    rw [putScan_match 0 g.cache_time none hsc] at h
    cases h
    simpa using getcacheScan_some_lt hsc
  | none =>
    rw [putScan_no_match 0 g.cache_time none (getcacheScan_none.mp hsc)] at h
    cases hmb : minBelow g.LRU_cache g.cache_time with
    | none => rw [hmb] at h; cases h
    | some j =>
      rw [hmb] at h
      cases h
      simpa using (minBelow_some hmb).1

theorem putcache_preserves_inv (g : CacheGlobals) (did sec blk : Int)
    (p : List Nat) (g2 : CacheGlobals) (h : cacheInv g)
    (hp : lcloud_putcache g did sec blk p = some g2) : cacheInv g2 := by
  obtain ⟨hlen, hct, hbnd, hdist⟩ := h
  unfold lcloud_putcache at hp
  cases hps : putScan did sec blk g.LRU_cache 0 g.cache_time none with
  | none => rw [hps] at hp; cases hp
  | some i =>
    rw [hps] at hp
    cases hp
    have hilt := putScan_some_lt hps
    refine ⟨by simpa using hlen, ?_, ?_, ?_⟩
    · show (0 : Int) ≤ g.cache_time + 1
      omega
    · intro k hk
      simp only [List.length_set] at hk
      simp only [lineTime, getD_set]
      by_cases he : i = k ∧ k < g.LRU_cache.length
      · rw [if_pos he]
        constructor <;> simp <;> omega
      · rw [if_neg he]
        have := hbnd k hk
        simp only [lineTime] at this
        constructor
        · exact this.1
        · omega
    · intro k hk j hj hne hnn
      simp only [List.length_set] at hk hj
      simp only [lineTime, getD_set] at hnn ⊢
      by_cases hei : i = k ∧ k < g.LRU_cache.length
      · rw [if_pos hei] at hnn ⊢
        by_cases hej : i = j ∧ j < g.LRU_cache.length
        · exact absurd (hei.1 ▸ hej.1) hne
        · rw [if_neg hej]
          have := (hbnd j hj).2
          simp only [lineTime] at this
          simp only []
          omega
      · rw [if_neg hei] at hnn ⊢
        by_cases hej : i = j ∧ j < g.LRU_cache.length
        · rw [if_pos hej]
          have := (hbnd k hk).2
          simp only [lineTime] at this
          simp only []
          omega
        · rw [if_neg hej]
          have := hdist k hk j hj hne
          simp only [lineTime] at this
          exact this hnn

theorem putcache_isSome (g : CacheGlobals) (did sec blk : Int) (p : List Nat)
    (h : cacheInv g) : (lcloud_putcache g did sec blk p).isSome := by
  obtain ⟨hlen, hct, hbnd, hdist⟩ := h
  unfold lcloud_putcache
  cases hsc : getcacheScan did sec blk g.LRU_cache with
  | some m =>
    rw [putScan_match 0 g.cache_time none hsc]
    rfl
  | none =>
    rw [putScan_no_match 0 g.cache_time none (getcacheScan_none.mp hsc)]
    cases hmb : minBelow g.LRU_cache g.cache_time with
    | some j => rfl
    | none =>
      exfalso
      have hall := minBelow_none.mp hmb
      have h0 := hall 0 (by omega)
      have h1 := hall 1 (by omega)
      have hb0 := hbnd 0 (by omega)
      have hb1 := hbnd 1 (by omega)
      simp only [lineTime] at hb0 hb1
      have he0 : (g.LRU_cache.getD 0 defaultLine).entry_time = g.cache_time := by
        omega
      have he1 : (g.LRU_cache.getD 1 defaultLine).entry_time = g.cache_time := by
        omega
      have := hdist 0 (by omega) 1 (by omega) (by omega)
      simp only [lineTime] at this
      exact this (by omega) (by omega)

theorem runCacheOps_safe :
    ∀ (ops : List CacheOp) (g : CacheGlobals), cacheInv g →
      ∃ g2, runCacheOps g ops = some g2 ∧ cacheInv g2
  | [], g => fun h => ⟨g, rfl, h⟩
  | CacheOp.lookup d s b :: ops, g => fun h => by
    have h2 := getcache_preserves_inv g d s b h
    obtain ⟨g3, hrun, hinv⟩ := runCacheOps_safe ops _ h2
    exact ⟨g3, hrun, hinv⟩
  | CacheOp.insert d s b p :: ops, g => fun h => by
    have hs := putcache_isSome g d s b p h
    cases hput : lcloud_putcache g d s b p with
    | none => rw [hput] at hs; cases hs
    | some g2 =>
      have h2 := putcache_preserves_inv g d s b p g2 h hput
      obtain ⟨g3, hrun, hinv⟩ := runCacheOps_safe ops g2 h2
      refine ⟨g3, ?_, hinv⟩
      rw [runCacheOps, hput]
      exact hrun

/-- C5 (amended): LRU eviction for caches with at least two lines.  (1) A
freshly initialised capacity-N cache with N ≥ 2 satisfies the cache
invariant; (2) the invariant is preserved by every sequence of lookups and
inserts, and no such sequence ever reaches the uninitialised-index
behaviour; (3) under the invariant, an insert whose key matches no line
overwrites exactly the line whose entry time — the logical time of its last
touch by a lookup or insert — is strictly smallest, leaving every other
line unchanged; (4) an insert whose key already matches a resident line
updates that line in place (the first matching line) and evicts nothing.
The original claim also asserted this for N = 1, where the code instead
reads an uninitialised index (see the counterexample). -/
theorem cache_lru_eviction :
    (∀ N, 2 ≤ N → cacheInv (lcloud_initcache N)) ∧
    (∀ (ops : List CacheOp) (g : CacheGlobals), cacheInv g →
      ∃ g2, runCacheOps g ops = some g2 ∧ cacheInv g2) ∧
    (∀ (g : CacheGlobals) (did sec blk : Int) (j : Nat) (p : List Nat),
      cacheInv g → j < g.LRU_cache.length →
      (∀ i < g.LRU_cache.length,
        cacheKeyMatches (lineAt g i) did sec blk = false) →
      (∀ i < g.LRU_cache.length, i ≠ j → lineTime g j < lineTime g i) →
      lcloud_putcache g did sec blk p = some
        { g with
          cache_time := g.cache_time + 1
          LRU_cache := g.LRU_cache.set j
            ⟨strncpyBytes p 256, g.cache_time + 1, did, sec, blk⟩ }) ∧
    (∀ (g : CacheGlobals) (did sec blk : Int) (m : Nat) (p : List Nat),
      getcacheScan did sec blk g.LRU_cache = some m →
      lcloud_putcache g did sec blk p = some
        { g with
          cache_time := g.cache_time + 1
          LRU_cache := g.LRU_cache.set m
            ⟨strncpyBytes p 256, g.cache_time + 1, did, sec, blk⟩ }) := by
  refine ⟨?_, ?_, ?_, ?_⟩
  · intro N hN
    refine ⟨by simpa only [lcloud_initcache, List.length_replicate] using hN,
      le_refl 0, ?_, ?_⟩
    · intro i hi
      simp only [lcloud_initcache, List.length_replicate] at hi
      simp only [lineTime, lcloud_initcache,
        getD_replicate N i _ defaultLine hi]
      norm_num
    · intro i hi j hj hne hpos
      simp only [lcloud_initcache, List.length_replicate] at hi hj
      simp only [lineTime, lcloud_initcache,
        getD_replicate N i _ defaultLine hi] at hpos
      norm_num at hpos
  · exact fun ops g h => runCacheOps_safe ops g h
  · intro g did sec blk j p hInv hj hno hmin
    obtain ⟨hlen, hct, hbnd, hdist⟩ := hInv
    have hno2 : ∀ i < g.LRU_cache.length,
        cacheKeyMatches (g.LRU_cache.getD i defaultLine) did sec blk = false :=
      hno
    have hsc : getcacheScan did sec blk g.LRU_cache = none :=
      getcacheScan_none.mpr hno2
    have hex : ∃ i, i < g.LRU_cache.length ∧ i ≠ j := by
      by_cases h0 : j = 0
      · exact ⟨1, by omega, by omega⟩
      · exact ⟨0, by omega, by omega⟩
    obtain ⟨i1, hi1, hne1⟩ := hex
    have hjlt : lineTime g j < g.cache_time := by
      have hlow := hmin i1 hi1 hne1
      have hb := (hbnd i1 hi1).2
      omega
    cases hmb : minBelow g.LRU_cache g.cache_time with
    | none =>
      exfalso
      have := minBelow_none.mp hmb j hj
      simp only [lineTime] at hjlt
      exact this hjlt
    | some j2 =>
      obtain ⟨hj2len, hj2lt, hj2min⟩ := minBelow_some hmb
      have hj2eq : j2 = j := by
        by_contra hne
        have hlow := hmin j2 hj2len hne
        have hmin2 := hj2min j hj
        simp only [lineTime] at hlow
        omega
      subst hj2eq
      unfold lcloud_putcache
      rw [putScan_no_match 0 g.cache_time none hno2, hmb]
      simp [Nat.zero_add]
  · intro g did sec blk m p hm
    unfold lcloud_putcache
    rw [putScan_match 0 g.cache_time none hm]
    simp [Nat.zero_add]

/-- C5 counterexample at capacity N = 1: in a freshly initialised one-line
cache, inserting two distinct keys back to back leaves `least_recent`
unassigned in the second `lcloud_putcache` (the single line's entry time
equals the pre-increment clock, so neither branch of the scan fires), and
the C writes through an uninitialised index — modelled as `none`.  The
claim instead requires a well-defined insert that evicts the
least-recently-touched key, so the claim fails for N = 1. -/
theorem cache_lru_capacity_one_ub :
    runCacheOps (lcloud_initcache 1)
      [CacheOp.insert 1 0 0 (List.replicate 256 7),
       CacheOp.insert 2 0 0 (List.replicate 256 9)] = none := by
  rfl

/-- Witness for C5 at a concrete input: in the two-line state
`cacheWitnessState` (line 0 touched at time 1, line 1 at time 2), inserting
the fresh key (3,0,0) evicts line 0, the least recently touched line. -/
theorem cache_lru_eviction_witness :
    lcloud_putcache cacheWitnessState 3 0 0 payloadWitness = some
      { cacheWitnessState with
        cache_time := cacheWitnessState.cache_time + 1
        LRU_cache := cacheWitnessState.LRU_cache.set 0
          ⟨strncpyBytes payloadWitness 256,
            cacheWitnessState.cache_time + 1, 3, 0, 0⟩ } :=
  cache_lru_eviction.2.2.1 cacheWitnessState 3 0 0 0 payloadWitness
    (by unfold cacheInv; decide) (by decide) (by decide) (by decide)

theorem runLookups_counts :
    ∀ (ks : List (Int × Int × Int)) (g : CacheGlobals),
      (runLookups g ks).hits = g.hits + countHits g ks ∧
      (runLookups g ks).misses + countHits g ks = g.misses + ks.length
  | [], g => by simp [runLookups, countHits]
  | k :: ks, g => by
    have ih := runLookups_counts ks (lcloud_getcache g k.1 k.2.1 k.2.2).2
    rw [runLookups, countHits]
    cases hsc : getcacheScan k.1 k.2.1 k.2.2 g.LRU_cache with
    | some m =>
      simp only [lcloud_getcache, hsc, Option.isSome_some, if_true] at ih ⊢
      simp only [List.length_cons]
      omega
    | none =>
      simp only [lcloud_getcache, hsc, Option.isSome_none, Bool.false_eq_true,
        if_false] at ih ⊢
      simp only [List.length_cons]
      omega

/-- C8 (amended): cache teardown reports the cumulative hit count H and
miss count K − H after any K lookups of which H hit, starting from a fresh
cache of any capacity; the ratio `(float)hits / (hits + misses)` is
computed unconditionally, so with K = 0 the reported ratio is the result of
a division by zero (IEEE NaN, modelled as `none`), and with K > 0 it is the
fraction H / K (modelled as the exact pair `(H, K)`).  The original claim's
guard — that the division is performed only when hits + misses > 0 — does
not exist in the code (see the counterexample). -/
theorem cache_teardown_stats (N : Nat) (ks : List (Int × Int × Int)) :
    lcloud_closecache (runLookups (lcloud_initcache N) ks) =
      (countHits (lcloud_initcache N) ks,
       ks.length - countHits (lcloud_initcache N) ks,
       if ks.length = 0 then none
       else some (countHits (lcloud_initcache N) ks, ks.length)) := by
  have h := runLookups_counts ks (lcloud_initcache N)
  have hh : (lcloud_initcache N).hits = 0 := rfl
  have hm : (lcloud_initcache N).misses = 0 := rfl
  rw [hh, hm] at h
  obtain ⟨h1, h2⟩ := h
  unfold lcloud_closecache
  refine Prod.ext ?_ (Prod.ext ?_ ?_)
  · simpa using h1
  · simp only []
    omega
  · simp only []
    by_cases hk : ks.length = 0
    · rw [if_pos hk, if_pos (by omega)]
    · rw [if_neg hk, if_neg (by omega)]
      simp only [Option.some.injEq]
      refine Prod.ext (by simpa using h1) (by simp only []; omega)

/-- C8 counterexample: shutting down with zero lookups.  The counters are
hits = 0 and misses = 0, and the reported ratio is `none`: the model's
record that `lcloud_closecache` performed the division
`(float)hits / (hits + misses)` with denominator 0 (yielding NaN).  This
contradicts the claim that the ratio division is performed only when
hits + misses > 0 and that a shutdown with zero lookups does not divide by
zero. -/
theorem cache_teardown_divzero :
    lcloud_closecache (lcloud_initcache LC_CACHE_MAXBLOCKS) = (0, 0, none) :=
  rfl

/-- C6: bus transport wire sequences.  For a block-read frame the transport
writes the (byte-order-converted) frame, reads back one frame, then reads
exactly one 256-byte payload; for a block-write it writes the frame, then
256 payload bytes, then reads back one frame; for power-off it writes the
frame, reads back one frame, and closes and discards the connection, so
that the next request (whatever its opcode) re-establishes it; for a frame
of any other opcode it exchanges exactly one frame in each direction with
no payload.  A missing connection is established before the exchange in
every case. -/
theorem bus_wire_sequences (conn : Bool) (reg : Nat) :
    (((extract_lcloud_registers reg).2.2.1 = LC_BLOCK_XFER ∧
      (extract_lcloud_registers reg).2.2.2.2.1 = LC_XFER_READ) →
      client_lcloud_bus_request_trace conn reg =
        ((if conn then [] else [WireAct.connect]) ++
         [WireAct.sendFrame (byteswap64 reg), WireAct.recvFrame,
          WireAct.recvPayload 256], true)) ∧
    (((extract_lcloud_registers reg).2.2.1 = LC_BLOCK_XFER ∧
      (extract_lcloud_registers reg).2.2.2.2.1 = LC_XFER_WRITE) →
      client_lcloud_bus_request_trace conn reg =
        ((if conn then [] else [WireAct.connect]) ++
         [WireAct.sendFrame (byteswap64 reg), WireAct.sendPayload 256,
          WireAct.recvFrame], true)) ∧
    ((extract_lcloud_registers reg).2.2.1 = LC_POWER_OFF →
      client_lcloud_bus_request_trace conn reg =
        ((if conn then [] else [WireAct.connect]) ++
         [WireAct.sendFrame (byteswap64 reg), WireAct.recvFrame,
          WireAct.closeConn], false)) ∧
    (((extract_lcloud_registers reg).2.2.1 ≠ LC_BLOCK_XFER ∧
      (extract_lcloud_registers reg).2.2.1 ≠ LC_POWER_OFF) →
      client_lcloud_bus_request_trace conn reg =
        ((if conn then [] else [WireAct.connect]) ++
         [WireAct.sendFrame (byteswap64 reg), WireAct.recvFrame], true)) ∧
    (∀ reg2 : Nat, ∃ rest : List WireAct,
      (client_lcloud_bus_request_trace false reg2).1 =
        WireAct.connect :: rest) := by
  refine ⟨?_, ?_, ?_, ?_, ?_⟩
  · intro h
    unfold client_lcloud_bus_request_trace
    rw [if_pos h]
    rfl
  · rintro ⟨h0, h2⟩
    unfold client_lcloud_bus_request_trace
    rw [if_neg (by
      rintro ⟨ha, hb⟩
      rw [h2] at hb
      exact absurd hb (by norm_num [LC_XFER_WRITE, LC_XFER_READ]))]
    rw [if_pos ⟨h0, h2⟩]
    rfl
  · intro h0
    unfold client_lcloud_bus_request_trace
    rw [if_neg (by
      rintro ⟨ha, _⟩
      rw [h0] at ha
      exact absurd ha (by norm_num [LC_POWER_OFF, LC_BLOCK_XFER]))]
    rw [if_neg (by
      rintro ⟨ha, _⟩
      rw [h0] at ha
      exact absurd ha (by norm_num [LC_POWER_OFF, LC_BLOCK_XFER]))]
    rw [if_pos h0]
  · rintro ⟨hx, hp⟩
    unfold client_lcloud_bus_request_trace
    rw [if_neg (by rintro ⟨ha, _⟩; exact hx ha),
      if_neg (by rintro ⟨ha, _⟩; exact hx ha), if_neg hp]
  · intro reg2
    unfold client_lcloud_bus_request_trace
    by_cases h1 : (extract_lcloud_registers reg2).2.2.1 = LC_BLOCK_XFER ∧
        (extract_lcloud_registers reg2).2.2.2.2.1 = LC_XFER_READ
    · rw [if_pos h1]; exact ⟨_, rfl⟩
    · rw [if_neg h1]
      by_cases h2 : (extract_lcloud_registers reg2).2.2.1 = LC_BLOCK_XFER ∧
          (extract_lcloud_registers reg2).2.2.2.2.1 = LC_XFER_WRITE
      · rw [if_pos h2]; exact ⟨_, rfl⟩
      · rw [if_neg h2]
        by_cases h3 : (extract_lcloud_registers reg2).2.2.1 = LC_POWER_OFF
        · rw [if_pos h3]; exact ⟨_, rfl⟩
        · rw [if_neg h3]; exact ⟨_, rfl⟩

/-- Witness for C6 at a concrete input: a block-read frame for device 1,
sector 2, block 3 sent over an existing connection produces exactly the
write-frame / read-frame / read-256-bytes sequence. -/
theorem bus_wire_sequences_witness :
    client_lcloud_bus_request_trace true
        (create_lcloud_registers 0 0 3 1 0 2 3) =
      ([WireAct.sendFrame
          (byteswap64 (create_lcloud_registers 0 0 3 1 0 2 3)),
        WireAct.recvFrame, WireAct.recvPayload 256], true) :=
  (bus_wire_sequences true (create_lcloud_registers 0 0 3 1 0 2 3)).1
    (by decide)

/-- C1: the write-read consistency claim fails on the code.  In a fresh
file, writing B = [0x00, 0x41] at offset 0 and reading 2 bytes back from
offset 0 returns [0x00, 0x00], not B: `lcwrite` sends the correct block to
the device (the store holds [0x00, 0x41, ...]) but `lcloud_putcache`
copies the block into the cache with `strncpy`, which stops at the first
zero byte and zero-fills the rest — despite its own comment "Copy the
input block's 256 bytes to the cache buffer" — and the subsequent read is
served from that truncated cache line.  The claim holds only for byte
sequences whose corrupted positions happen to match, not "regardless of
the byte values of B". -/
theorem write_read_consistency_failure :
    c1_open.1 = 0 ∧
    c1_write.map Prod.fst = some 2 ∧
    c1_readback.map (fun r => (r.1, r.2.1)) = some (2, [0, 0]) ∧
    c1_write.map (fun r => (storeGet r.2.store (0, 0, 0)).take 2) =
      some [0, 65] ∧
    ([0, 0] : List Nat) ≠ [0, 65] := by
  refine ⟨rfl, rfl, rfl, rfl, by decide⟩

/-- C3: the open-by-path-content claim fails on the code.  `lcopen`
compares `files[fh].name == path`: the address of the name array stored
inside the file table against the caller's pointer.  A separately
constructed string with equal characters never has that address, so the
lookup never matches: opening "foo" twice (two equal strings at different
addresses) succeeds both times, creating two distinct files (handles 0 and
1, both marked open, both named "foo", the second empty), where the claim
requires the second open to fail as "already open". -/
theorem open_path_identity_failure :
    c3_open1.1 = 0 ∧
    (fileGet c3_open1.2.files 0).opened = 1 ∧
    (fileGet c3_open1.2.files 0).name = [102, 111, 111] ∧
    c3_open2.1 = 1 ∧
    (fileGet c3_open2.2.files 0).opened = 1 ∧
    (fileGet c3_open2.2.files 1).opened = 1 ∧
    (fileGet c3_open2.2.files 1).name = [102, 111, 111] ∧
    (fileGet c3_open2.2.files 1).size = 0 ∧
    c3_open2.2.file_handle = 2 := by
  refine ⟨rfl, rfl, rfl, rfl, rfl, rfl, rfl, rfl, rfl⟩

/-- C7: seek bounds.  For an open file with a sane size (non-negative,
below 2^31) and a seek offset representable as a C 64-bit integer, a
negative offset fails (it wraps to a huge `size_t`, caught by the upper
bound), an offset in [0, size] succeeds, sets the position to the offset
and returns it (so seeking to exactly `size` succeeds and returns
`size`), an offset strictly above the size fails, and a failed seek
leaves the state — in particular the position — unchanged. -/
theorem seek_bounds (st : FSState) (fh : Int) (off : Int)
    (hfh : ¬fh > st.file_handle)
    (hopen : ¬(fileGet st.files fh).opened = 0)
    (hsz0 : 0 ≤ (fileGet st.files fh).size)
    (hsz : (fileGet st.files fh).size < 2 ^ 31)
    (hlo : -(2 ^ 63) ≤ off) (hhi : off < 2 ^ 63) :
    (off < 0 → lcseek st fh off = (-1, st)) ∧
    (0 ≤ off → off ≤ (fileGet st.files fh).size →
      lcseek st fh off =
        (off,
         { st with
           files :=
             filesSet st.files fh.toNat
               { fileGet st.files fh with pos := off } })) ∧
    ((fileGet st.files fh).size < off → lcseek st fh off = (-1, st)) := by
  have hval : validate_fh st fh = some (fileGet st.files fh) := by
    unfold validate_fh
    rw [if_neg hfh, if_neg hopen]
  have hseek : lcseek st fh off =
      if ((off % (2 ^ 64 : Int)).toNat) >
          (((fileGet st.files fh).size % (2 ^ 64 : Int)).toNat)
      then (-1, st)
      else
        ((int32ofNat ((off % (2 ^ 64 : Int)).toNat) : Int),
         { st with
           files :=
             filesSet st.files fh.toNat
               { fileGet st.files fh with
                 pos := int32ofNat ((off % (2 ^ 64 : Int)).toNat) } }) := by
    unfold lcseek
    rw [hval]
  refine ⟨?_, ?_, ?_⟩
  · intro hneg
    have hc : ((off % (2 ^ 64 : Int)).toNat) >
        (((fileGet st.files fh).size % (2 ^ 64 : Int)).toNat) := by omega
    rw [hseek, if_pos hc]
  · intro h0 hle
    have hc : ¬(((off % (2 ^ 64 : Int)).toNat) >
        (((fileGet st.files fh).size % (2 ^ 64 : Int)).toNat)) := by omega
    have hpos : int32ofNat ((off % (2 ^ 64 : Int)).toNat) = off := by
      unfold int32ofNat
      rw [if_pos (by omega)]
      omega
    rw [hseek, if_neg hc, hpos]
  · intro hgt
    have hc : ((off % (2 ^ 64 : Int)).toNat) >
        (((fileGet st.files fh).size % (2 ^ 64 : Int)).toNat) := by omega
    rw [hseek, if_pos hc]

/-- Witness for C7 at concrete inputs: in a state with an open file of
size 5, seeking to exactly 5 succeeds and returns 5. -/
theorem seek_bounds_witness :
    lcseek seekWitnessState 0 5 =
      (5,
       { seekWitnessState with
         files :=
           filesSet seekWitnessState.files (0 : Int).toNat
             { fileGet seekWitnessState.files 0 with pos := 5 } }) :=
  (seek_bounds seekWitnessState 0 5 (by decide)
    (by decide) (by decide) (by decide) (by norm_num) (by norm_num)).2.1
    (by norm_num) (by decide)

theorem initLoop_acks :
    ∀ (count probe : Nat) (resps rest : List Nat),
      initLoop probe count resps = some rest →
      ∃ used, resps = used ++ rest ∧
        ∀ r ∈ used, lc_ack_ok r LC_DEVINIT = true
  | 0, probe, resps, rest => by
    intro h
    unfold initLoop at h
    cases h
    exact ⟨[], rfl, by intro r hr; cases hr⟩
  | count + 1, probe, resps, rest => by
    intro h
    unfold initLoop at h
    by_cases hbit : probe % 2 = 1
    · rw [if_pos hbit] at h
      cases resps with
      | nil => cases h
      | cons r rs =>
        replace h : (if lc_ack_ok r LC_DEVINIT = true then
            initLoop (probe / 2) count rs else none) = some rest := h
        by_cases hack : lc_ack_ok r LC_DEVINIT = true
        · rw [if_pos hack] at h
          obtain ⟨used, hused, hall⟩ := initLoop_acks count (probe / 2) rs rest h
          refine ⟨r :: used, by rw [hused]; rfl, ?_⟩
          intro r2 hr2
          cases hr2 with
          | head => exact hack
          | tail _ htail => exact hall r2 htail
        · rw [if_neg hack] at h
          cases h
    · rw [if_neg hbit] at h
      exact initLoop_acks count (probe / 2) resps rest h

/-- C4 (amended): acknowledgement convention.  The single acceptance test
applied at every bus call site of the driver — power-on, probe,
device-init and block-transfer — accepts a response frame iff its B0
field equals 1, its B1 field equals 1, and its C0 field echoes the
request's opcode (the code checks `b0 != 1 || b1 != 1 || c0 != op`, not
the all-ones value 15 of the claim); a power-on sequence succeeds only if
every consumed response passes this test with its step's opcode, and a
response failing the test at the first or second step makes the sequence
fail with the sentinel value. -/
theorem ack_convention :
    (∀ r op : Nat, lc_ack_ok r op = true ↔
      ((extract_lcloud_registers r).1 = 1 ∧
       (extract_lcloud_registers r).2.1 = 1 ∧
       (extract_lcloud_registers r).2.2.1 = op)) ∧
    (∀ resps rest : List Nat, device_power_on_resp resps = some rest →
      ∃ r1 r2 used, resps = r1 :: r2 :: (used ++ rest) ∧
        lc_ack_ok r1 LC_POWER_ON = true ∧
        lc_ack_ok r2 LC_DEVPROBE = true ∧
        ∀ r ∈ used, lc_ack_ok r LC_DEVINIT = true) ∧
    (∀ (r1 r2 : Nat) (rest : List Nat), lc_ack_ok r1 LC_POWER_ON = false →
      device_power_on_resp (r1 :: r2 :: rest) = none) ∧
    (∀ (r1 r2 : Nat) (rest : List Nat), lc_ack_ok r2 LC_DEVPROBE = false →
      device_power_on_resp (r1 :: r2 :: rest) = none) := by
  refine ⟨?_, ?_, ?_, ?_⟩
  · intro r op
    unfold lc_ack_ok
    simp [Bool.and_eq_true, beq_iff_eq, and_assoc]
  · intro resps rest h
    match resps, h with
    | r1 :: r2 :: rs, h => ?_
    replace h : (if lc_ack_ok r1 LC_POWER_ON = true then
        (if lc_ack_ok r2 LC_DEVPROBE = true then
          initLoop (extract_lcloud_registers r2).2.2.2.2.2.1 16 rs
        else none)
      else none) = some rest := h
    by_cases h1 : lc_ack_ok r1 LC_POWER_ON = true
    · rw [if_pos h1] at h
      by_cases h2 : lc_ack_ok r2 LC_DEVPROBE = true
      · rw [if_pos h2] at h
        obtain ⟨used, hused, hall⟩ := initLoop_acks 16 _ rs rest h
        exact ⟨r1, r2, used, by rw [hused], h1, h2, hall⟩
      · rw [if_neg h2] at h; cases h
    · rw [if_neg h1] at h; cases h
  · intro r1 r2 rest h1
    show (if lc_ack_ok r1 LC_POWER_ON = true then
        (if lc_ack_ok r2 LC_DEVPROBE = true then
          initLoop (extract_lcloud_registers r2).2.2.2.2.2.1 16 rest
        else none)
      else none) = none
    rw [if_neg (by rw [h1]; exact Bool.false_ne_true)]
  · intro r1 r2 rest h2
    show (if lc_ack_ok r1 LC_POWER_ON = true then
        (if lc_ack_ok r2 LC_DEVPROBE = true then
          initLoop (extract_lcloud_registers r2).2.2.2.2.2.1 16 rest
        else none)
      else none) = none
    by_cases h1 : lc_ack_ok r1 LC_POWER_ON = true
    · rw [if_pos h1, if_neg (by rw [h2]; exact Bool.false_ne_true)]
    · rw [if_neg h1]

/-- C4 counterexample: a full power-on round whose responses all carry
B0 = B1 = 1 (not the all-ones value 15) succeeds: with the probe mask 0,
`device_power_on` accepts the two responses and completes.  The claim
says such an operation succeeds only when B0 and B1 equal 15, yet here it
succeeds with B0 = B1 = 1 — and a response carrying B0 = B1 = 15 fails
the code's acceptance test. -/
theorem ack_convention_counterexample :
    device_power_on_resp
      [create_lcloud_registers 1 1 LC_POWER_ON 0 0 0 0,
       create_lcloud_registers 1 1 LC_DEVPROBE 0 0 0 0] = some [] ∧
    (extract_lcloud_registers
      (create_lcloud_registers 1 1 LC_POWER_ON 0 0 0 0)).1 = 1 ∧
    (1 : Nat) ≠ 15 ∧
    lc_ack_ok (create_lcloud_registers 15 15 LC_POWER_ON 0 0 0 0)
      LC_POWER_ON = false := by
  refine ⟨rfl, rfl, by decide, rfl⟩

/-- Witness for C4 at a concrete input: a power-on sequence with one
device (probe mask 1) that succeeds, decomposed by the theorem into its
checked responses. -/
theorem ack_convention_witness :
    ∃ r1 r2 used,
      ([busAck LC_POWER_ON 0 0, busAck LC_DEVPROBE 1 0,
        busAck LC_DEVINIT 2 4] : List Nat) = r1 :: r2 :: (used ++ []) ∧
      lc_ack_ok r1 LC_POWER_ON = true ∧
      lc_ack_ok r2 LC_DEVPROBE = true ∧
      ∀ r ∈ used, lc_ack_ok r LC_DEVINIT = true :=
  ack_convention.2.1
    [busAck LC_POWER_ON 0 0, busAck LC_DEVPROBE 1 0, busAck LC_DEVINIT 2 4]
    [] rfl

theorem devGet_natCast (ds : List lcloud_device) (id : Nat) :
    devGet ds (id : Int) = ds.getD id defaultDevice := by
  unfold devGet
  rw [if_neg (by omega)]
  simp

theorem cellAt_eq (ds : List lcloud_device) (id i j : Nat) :
    cellAt ds id i j =
      ((ds.getD id defaultDevice).sector_block.getD i []).getD j
        defaultBlock := by
  unfold cellAt gridGet
  rw [devGet_natCast, if_neg (by omega)]
  simp

theorem findFreeRow_none :
    ∀ {row : List lcloud_block}, findFreeRow row = none ↔
      ∀ j < row.length, (row.getD j defaultBlock).used ≠ 0
  | [] => by simp [findFreeRow]
  | b :: bs => by
    by_cases hb : b.used = 0
    · rw [findFreeRow, if_pos hb]
      constructor
      · intro h; cases h
      · intro h
        exact absurd hb (by simpa using h 0 (by simp))
    · cases hfr : findFreeRow bs with
      | some j =>
        rw [findFreeRow, if_neg hb, hfr]
        constructor
        · intro h; cases h
        · intro h
          have hnone := (@findFreeRow_none bs).mpr (fun j2 hj2 => by
            have := h (j2 + 1) (by simp; omega)
            simpa using this)
          rw [hfr] at hnone; cases hnone
      | none =>
        rw [findFreeRow, if_neg hb, hfr]
        constructor
        · intro _ j hj
          cases j with
          | zero => simpa using hb
          | succ j =>
            simp only [List.getD_cons_succ]
            exact findFreeRow_none.mp hfr j (by simpa using hj)
        · intro _; rfl

theorem findFreeRow_some :
    ∀ {row : List lcloud_block} {j : Nat}, findFreeRow row = some j →
      j < row.length ∧ (row.getD j defaultBlock).used = 0 ∧
        ∀ j2 < j, (row.getD j2 defaultBlock).used ≠ 0
  | [], j => by intro h; cases h
  | b :: bs, j => by
    by_cases hb : b.used = 0
    · rw [findFreeRow, if_pos hb]
      intro h; cases h
      refine ⟨by simp, by simpa using hb, ?_⟩
      intro j2 hj2
      exact absurd hj2 (by omega)
    · cases hfr : findFreeRow bs with
      | none => rw [findFreeRow, if_neg hb, hfr]; intro h; cases h
      | some j0 =>
        rw [findFreeRow, if_neg hb, hfr]
        intro h; cases h
        obtain ⟨hlen, hused, hfirst⟩ := findFreeRow_some hfr
        refine ⟨by simp; omega, by simpa using hused, ?_⟩
        intro j2 hj2
        cases j2 with
        | zero => simpa using hb
        | succ j2 =>
          simp only [List.getD_cons_succ]
          exact hfirst j2 (by omega)

theorem findFreeGrid_none :
    ∀ {rows : List (List lcloud_block)}, findFreeGrid rows = none ↔
      ∀ i < rows.length, ∀ j < (rows.getD i []).length,
        ((rows.getD i []).getD j defaultBlock).used ≠ 0
  | [] => by simp [findFreeGrid]
  | row :: rows => by
    cases hfr : findFreeRow row with
    | some j =>
      rw [findFreeGrid, hfr]
      constructor
      · intro h; cases h
      · intro h
        obtain ⟨hlen, hused, _⟩ := findFreeRow_some hfr
        exact absurd hused (by simpa using h 0 (by simp) j (by simpa using hlen))
    | none =>
      cases hfg : findFreeGrid rows with
      | some t =>
        rw [findFreeGrid, hfr, hfg]
        constructor
        · intro h; cases h
        · intro h
          have hnone := (@findFreeGrid_none rows).mpr
            (fun i2 hi2 j2 hj2 => by
            have := h (i2 + 1) (by simp; omega) j2 (by simpa using hj2)
            simpa using this)
          rw [hfg] at hnone; cases hnone
      | none =>
        rw [findFreeGrid, hfr, hfg]
        constructor
        · intro _ i hi
          cases i with
          | zero =>
            intro j hj
            simp only [List.getD_cons_zero] at hj ⊢
            exact findFreeRow_none.mp hfr j hj
          | succ i =>
            simp only [List.getD_cons_succ]
            exact findFreeGrid_none.mp hfg i (by simpa using hi)
        · intro _; rfl

theorem findFreeGrid_some :
    ∀ {rows : List (List lcloud_block)} {i j : Nat},
      findFreeGrid rows = some (i, j) →
      i < rows.length ∧ j < (rows.getD i []).length ∧
        ((rows.getD i []).getD j defaultBlock).used = 0 ∧
        (∀ i2 < i, ∀ j2 < (rows.getD i2 []).length,
          ((rows.getD i2 []).getD j2 defaultBlock).used ≠ 0) ∧
        (∀ j2 < j, ((rows.getD i []).getD j2 defaultBlock).used ≠ 0)
  | [], i, j => by intro h; cases h
  | row :: rows, i, j => by
    cases hfr : findFreeRow row with
    | some j0 =>
      rw [findFreeGrid, hfr]
      intro h; cases h
      obtain ⟨hlen, hused, hfirst⟩ := findFreeRow_some hfr
      refine ⟨by simp, by simpa using hlen, by simpa using hused, ?_, ?_⟩
      · intro i2 hi2; omega
      · intro j2 hj2
        simp only [List.getD_cons_zero]
        exact hfirst j2 hj2
    | none =>
      cases hfg : findFreeGrid rows with
      | none => rw [findFreeGrid, hfr, hfg]; intro h; cases h
      | some t =>
        obtain ⟨i0, j0⟩ := t
        rw [findFreeGrid, hfr, hfg]
        intro h; cases h
        obtain ⟨hilen, hjlen, hused, hrows, hrow⟩ := findFreeGrid_some hfg
        refine ⟨by simp; omega, by simpa using hjlen, by simpa using hused,
          ?_, ?_⟩
        · intro i2 hi2
          cases i2 with
          | zero =>
            intro j2 hj2
            simp only [List.getD_cons_zero] at hj2 ⊢
            exact findFreeRow_none.mp hfr j2 hj2
          | succ i2 =>
            simp only [List.getD_cons_succ]
            exact hrows i2 (by omega)
        · intro j2 hj2
          simp only [List.getD_cons_succ]
          exact hrow j2 hj2

theorem allocate_block_aux_none :
    ∀ {ds : List lcloud_device} (id0 : Nat),
      allocate_block_aux ds id0 = none ↔
      ∀ k < ds.length, (ds.getD k defaultDevice).dev_id ≠ -1 →
        findFreeGrid (ds.getD k defaultDevice).sector_block = none
  | [], id0 => by simp [allocate_block_aux]
  | d :: ds, id0 => by
    by_cases hd : d.dev_id ≠ -1
    · cases hfg : findFreeGrid d.sector_block with
      | some t =>
        rw [allocate_block_aux, if_pos hd, hfg]
        obtain ⟨i0, j0⟩ := t
        constructor
        · intro h; cases h
        · intro h
          have := h 0 (by simp) (by simpa using hd)
          simp only [List.getD_cons_zero] at this
          rw [hfg] at this; cases this
      | none =>
        rw [allocate_block_aux, if_pos hd, hfg]
        rw [allocate_block_aux_none (id0 + 1)]
        constructor
        · intro h k hk
          cases k with
          | zero => intro _; simpa using hfg
          | succ k =>
            simp only [List.getD_cons_succ]
            exact h k (by simpa using hk)
        · intro h k hk
          have := h (k + 1) (by simp; omega)
          simpa using this
    · rw [allocate_block_aux, if_neg hd]
      rw [allocate_block_aux_none (id0 + 1)]
      constructor
      · intro h k hk
        cases k with
        | zero =>
          intro hpres
          exact absurd (by simpa using hpres) hd
        | succ k =>
          simp only [List.getD_cons_succ]
          exact h k (by simpa using hk)
      · intro h k hk
        have := h (k + 1) (by simp; omega)
        simpa using this

theorem allocate_block_aux_some :
    ∀ {ds : List lcloud_device} (id0 : Nat) {id i j : Nat},
      allocate_block_aux ds id0 = some (id, i, j) →
      ∃ k, id = id0 + k ∧ k < ds.length ∧
        (ds.getD k defaultDevice).dev_id ≠ -1 ∧
        findFreeGrid (ds.getD k defaultDevice).sector_block = some (i, j) ∧
        ∀ k2 < k, (ds.getD k2 defaultDevice).dev_id ≠ -1 →
          findFreeGrid (ds.getD k2 defaultDevice).sector_block = none
  | [], id0, id, i, j => by intro h; cases h
  | d :: ds, id0, id, i, j => by
    by_cases hd : d.dev_id ≠ -1
    · cases hfg : findFreeGrid d.sector_block with
      | some t =>
        obtain ⟨i0, j0⟩ := t
        rw [allocate_block_aux, if_pos hd, hfg]
        intro h; cases h
        exact ⟨0, by omega, by simp, by simpa using hd, by simpa using hfg,
          by intro k2 hk2; omega⟩
      | none =>
        rw [allocate_block_aux, if_pos hd, hfg]
        intro h
        obtain ⟨k, hk0, hklen, hpres, hgrid, hfirst⟩ :=
          allocate_block_aux_some (id0 + 1) h
        refine ⟨k + 1, by omega, by simp; omega, by simpa using hpres,
          by simpa using hgrid, ?_⟩
        intro k2 hk2
        cases k2 with
        | zero => intro _; simpa using hfg
        | succ k2 =>
          simp only [List.getD_cons_succ]
          exact hfirst k2 (by omega)
    · rw [allocate_block_aux, if_neg hd]
      intro h
      obtain ⟨k, hk0, hklen, hpres, hgrid, hfirst⟩ :=
        allocate_block_aux_some (id0 + 1) h
      refine ⟨k + 1, by omega, by simp; omega, by simpa using hpres,
        by simpa using hgrid, ?_⟩
      intro k2 hk2
      cases k2 with
      | zero =>
        intro hpres0
        exact absurd (by simpa using hpres0) hd
      | succ k2 =>
        simp only [List.getD_cons_succ]
        exact hfirst k2 (by omega)

theorem cellAt_set_hit (ds : List lcloud_device) (id i j : Nat)
    (blk : lcloud_block) (hid : id < ds.length)
    (hi : i < (ds.getD id defaultDevice).sector_block.length)
    (hj : j < ((ds.getD id defaultDevice).sector_block.getD i []).length) :
    cellAt (devicesSetBlock ds (id : Int) (i : Int) (j : Int) blk) id i j
      = blk := by
  unfold devicesSetBlock gridSet
  rw [if_neg (by omega), if_neg (by omega), cellAt_eq]
  simp only [Int.toNat_ofNat, devGet_natCast]
  rw [getD_set, if_pos ⟨rfl, hid⟩]
  simp only []
  rw [getD_set, if_pos ⟨rfl, hi⟩, getD_set, if_pos ⟨rfl, hj⟩]

theorem cellAt_set_miss (ds : List lcloud_device) (id i j : Nat)
    (blk : lcloud_block) (id2 i2 j2 : Nat)
    (hne : ¬(id2 = id ∧ i2 = i ∧ j2 = j)) :
    cellAt (devicesSetBlock ds (id : Int) (i : Int) (j : Int) blk) id2 i2 j2
      = cellAt ds id2 i2 j2 := by
  unfold devicesSetBlock gridSet
  rw [if_neg (by omega), if_neg (by omega), cellAt_eq, cellAt_eq]
  simp only [Int.toNat_ofNat, devGet_natCast]
  rw [getD_set]
  by_cases hidq : id = id2 ∧ id2 < ds.length
  · rw [if_pos hidq]
    simp only []
    obtain ⟨hid2, _⟩ := hidq
    subst hid2
    rw [getD_set]
    by_cases hiq : i = i2 ∧
        i2 < (ds.getD id defaultDevice).sector_block.length
    · rw [if_pos hiq]
      obtain ⟨hi2, _⟩ := hiq
      subst hi2
      rw [getD_set]
      by_cases hjq : j = j2 ∧
          j2 < ((ds.getD id defaultDevice).sector_block.getD i []).length
      · exact absurd ⟨rfl, rfl, hjq.1.symm⟩ hne
      · rw [if_neg hjq]
    · rw [if_neg hiq]
  · rw [if_neg hidq]

theorem devicesSetBlock_dev_id (ds : List lcloud_device) (id i j : Nat)
    (blk : lcloud_block) (id2 : Nat) :
    (((devicesSetBlock ds (id : Int) (i : Int) (j : Int) blk).getD id2
      defaultDevice)).dev_id = ((ds.getD id2 defaultDevice)).dev_id := by
  unfold devicesSetBlock
  rw [if_neg (by omega)]
  simp only [Int.toNat_ofNat, devGet_natCast]
  rw [getD_set]
  by_cases hq : id = id2 ∧ id2 < ds.length
  · rw [if_pos hq]
    obtain ⟨h1, _⟩ := hq
    subst h1
    rfl
  · rw [if_neg hq]

/-- C9: allocator first-fit and exhaustion.  `allocate_block` returns the
lexicographically first (device id, sector, block) descriptor on a present
device whose used flag is clear; it sets exactly that descriptor's used
flag (its link fields and every other descriptor, including all existing
chain links, are unchanged, as are all device ids); and it fails exactly
when every descriptor on every present device is already used. -/
theorem allocator_first_fit (ds : List lcloud_device) :
    (∀ (di i j : Nat) (ds2 : List lcloud_device),
      allocate_block ds = some ((di, i, j), ds2) →
      blockFree ds di i j ∧
      (∀ di2 i2 j2, blockFree ds di2 i2 j2 →
        di < di2 ∨ (di = di2 ∧ (i < i2 ∨ (i = i2 ∧ j ≤ j2)))) ∧
      cellAt ds2 di i j = { cellAt ds di i j with used := 1 } ∧
      (∀ di2 i2 j2 : Nat, ¬(di2 = di ∧ i2 = i ∧ j2 = j) →
        cellAt ds2 di2 i2 j2 = cellAt ds di2 i2 j2) ∧
      (∀ di2 : Nat, ((ds2.getD di2 defaultDevice)).dev_id =
        ((ds.getD di2 defaultDevice)).dev_id)) ∧
    (allocate_block ds = none ↔ ∀ di i j, ¬blockFree ds di i j) := by
  constructor
  · intro di i j ds2 h
    unfold allocate_block at h
    cases haux : allocate_block_aux ds 0 with
    | none => rw [haux] at h; cases h
    | some t =>
      obtain ⟨tid, ti, tj⟩ := t
      rw [haux] at h
      simp only [Option.some.injEq, Prod.mk.injEq] at h
      obtain ⟨⟨hid, hi, hj⟩, hds2⟩ := h
      replace hid := hid.symm
      replace hi := hi.symm
      replace hj := hj.symm
      subst hid; subst hi; subst hj
      obtain ⟨k, hk0, hklen, hpres, hgrid, hfirst⟩ :=
        allocate_block_aux_some 0 haux
      have hkid : di = k := by omega
      subst hkid
      obtain ⟨hilen, hjlen, hused, hrows, hrow⟩ := findFreeGrid_some hgrid
      have hfree : blockFree ds di i j := ⟨hpres, hilen, hjlen, hused⟩
      refine ⟨hfree, ?_, ?_, ?_, ?_⟩
      · intro di2 i2 j2 hfree2
        obtain ⟨hpres2, hi2, hj2, hused2⟩ := hfree2
        by_cases hlt : di2 < di
        · exact absurd hused2
            (findFreeGrid_none.mp (hfirst di2 hlt hpres2) i2 hi2 j2 hj2)
        · by_cases heq : di2 = di
          · subst heq
            right
            refine ⟨rfl, ?_⟩
            by_cases hilt : i2 < i
            · exact absurd hused2 (hrows i2 hilt j2 hj2)
            · by_cases hieq : i2 = i
              · subst hieq
                right
                refine ⟨rfl, ?_⟩
                by_cases hjlt : j2 < j
                · exact absurd hused2 (hrow j2 hjlt)
                · omega
              · left; omega
          · left; omega
      · rw [← hds2, cellAt_eq ds]
        exact cellAt_set_hit ds di i j _ hklen hilen hjlen
      · intro di2 i2 j2 hne
        rw [← hds2]
        exact cellAt_set_miss ds di i j _ di2 i2 j2 hne
      · intro di2
        rw [← hds2]
        exact devicesSetBlock_dev_id ds di i j _ di2
  · constructor
    · intro h di i j hfree
      obtain ⟨hpres, hi, hj, hused⟩ := hfree
      unfold allocate_block at h
      cases haux : allocate_block_aux ds 0 with
      | some t => rw [haux] at h; obtain ⟨a, b, c⟩ := t; cases h
      | none =>
        have hk := (allocate_block_aux_none 0).mp haux
        by_cases hlen : di < ds.length
        · exact absurd hused
            (findFreeGrid_none.mp (hk di hlen hpres) i hi j hj)
        · have : ds.getD di defaultDevice = defaultDevice :=
            List.getD_eq_default _ _ (by omega)
          rw [this] at hpres
          exact hpres rfl
    · intro h
      unfold allocate_block
      cases haux : allocate_block_aux ds 0 with
      | none => rfl
      | some t =>
        obtain ⟨tid, ti, tj⟩ := t
        exfalso
        obtain ⟨k, hk0, hklen, hpres, hgrid, _⟩ :=
          allocate_block_aux_some 0 haux
        obtain ⟨hilen, hjlen, hused, _, _⟩ := findFreeGrid_some hgrid
        exact h k ti tj ⟨hpres, hilen, hjlen, hused⟩

/-- Witness for C9 at a concrete input: in a one-device table whose first
descriptor is used and second free, the allocator picks (0, 0, 1), which
is free in the input, and marks exactly it used. -/
theorem allocator_first_fit_witness :
    blockFree allocWitnessDevices 0 0 1 ∧
    cellAt
      (devicesSetBlock allocWitnessDevices 0 0 1
        { cellAt allocWitnessDevices 0 0 1 with used := 1 }) 0 0 1 =
      { cellAt allocWitnessDevices 0 0 1 with used := 1 } :=
  ⟨((allocator_first_fit allocWitnessDevices).1 0 0 1 _ rfl).1,
   ((allocator_first_fit allocWitnessDevices).1 0 0 1 _ rfl).2.2.1⟩

theorem lcseek_fp (st : FSState) (fh off : Int) :
    (lcseek st fh off).2.file_handle = st.file_handle ∧
    (lcseek st fh off).2.power_ons = st.power_ons := by
  simp only [lcseek]
  split
  · exact ⟨rfl, rfl⟩
  · split
    · exact ⟨rfl, rfl⟩
    · exact ⟨rfl, rfl⟩

theorem lcread_loop_fp :
    ∀ (fuel : Nat) (st : FSState) (file : lcloud_file) (len i : Nat)
      (acc : List Nat) (r : Int × List Nat × lcloud_file × FSState),
      lcread_loop st file len i acc fuel = some r →
      r.2.2.2.file_handle = st.file_handle ∧
      r.2.2.2.power_ons = st.power_ons
  | 0, st, file, len, i, acc, r => by intro h; cases h
  | fuel + 1, st, file, len, i, acc, r => by
    intro h
    simp only [lcread_loop] at h
    split at h
    · split at h
      · cases h; exact ⟨rfl, rfl⟩
      · split at h
        · split at h
          · split at h
            · have hrec := lcread_loop_fp fuel _ _ _ _ _ _ h
              exact hrec
            · have hrec := lcread_loop_fp fuel _ _ _ _ _ _ h
              exact hrec
          · split at h
            · have hrec := lcread_loop_fp fuel _ _ _ _ _ _ h
              exact hrec
            · have hrec := lcread_loop_fp fuel _ _ _ _ _ _ h
              exact hrec
        · cases h; exact ⟨rfl, rfl⟩
    · cases h; exact ⟨rfl, rfl⟩

theorem lcread_fp (st : FSState) (fh : Int) (len0 fuel : Nat)
    (r : Int × List Nat × FSState) (h : lcread st fh len0 fuel = some r) :
    r.2.2.file_handle = st.file_handle ∧ r.2.2.power_ons = st.power_ons := by
  simp only [lcread] at h
  split at h
  · cases h; exact ⟨rfl, rfl⟩
  · split at h
    · cases h; exact ⟨rfl, rfl⟩
    · split at h
      · cases h
      · rename_i ret buf file2 st2 heq
        have hloop := lcread_loop_fp _ _ _ _ _ _ _ heq
        split at h
        · cases h
          exact hloop
        · cases h
          exact hloop

theorem lcwrite_loop_fp :
    ∀ (fuel : Nat) (st : FSState) (file : lcloud_file) (fh : Int)
      (buf : List Nat) (len i : Nat) (r : Int × FSState),
      lcwrite_loop st file fh buf len i fuel = some r →
      r.2.file_handle = st.file_handle ∧ r.2.power_ons = st.power_ons
  | 0, st, file, fh, buf, len, i, r => by intro h; cases h
  | fuel + 1, st, file, fh, buf, len, i, r => by
    intro h
    simp only [lcwrite_loop] at h
    split at h
    · split at h
      · cases h; exact ⟨rfl, rfl⟩
      · rename_i dev sec blk
        have hseek := lcseek_fp st fh (file.pos - ((file.pos % 256).toNat : Int))
        split at h
        · cases h
        · rename_i a rbuf st2 heq2
          have hread : st2.file_handle =
                (lcseek st fh (file.pos - ((file.pos % 256).toNat : Int))).2.file_handle ∧
              st2.power_ons =
                (lcseek st fh (file.pos - ((file.pos % 256).toNat : Int))).2.power_ons :=
            lcread_fp _ _ _ _ _ heq2
          split at h
          · split at h
            · cases h
            · split at h
              · split at h
                · split at h
                  · cases h
                    refine ⟨?_, ?_⟩
                    · show st2.file_handle = st.file_handle
                      omega
                    · show st2.power_ons = st.power_ons
                      omega
                  · obtain ⟨hrec1, hrec2⟩ := lcwrite_loop_fp fuel _ _ _ _ _ _ _ h
                    replace hrec1 : r.2.file_handle = st2.file_handle := hrec1
                    replace hrec2 : r.2.power_ons = st2.power_ons := hrec2
                    exact ⟨by omega, by omega⟩
                · obtain ⟨hrec1, hrec2⟩ := lcwrite_loop_fp fuel _ _ _ _ _ _ _ h
                  replace hrec1 : r.2.file_handle = st2.file_handle := hrec1
                  replace hrec2 : r.2.power_ons = st2.power_ons := hrec2
                  exact ⟨by omega, by omega⟩
              · obtain ⟨hrec1, hrec2⟩ := lcwrite_loop_fp fuel _ _ _ _ _ _ _ h
                replace hrec1 : r.2.file_handle = st2.file_handle := hrec1
                replace hrec2 : r.2.power_ons = st2.power_ons := hrec2
                exact ⟨by omega, by omega⟩
          · cases h
            refine ⟨?_, ?_⟩
            · show st2.file_handle = st.file_handle
              omega
            · show st2.power_ons = st.power_ons
              omega
    · cases h; exact ⟨rfl, rfl⟩

theorem lcwrite_fp (st : FSState) (fh : Int) (buf : List Nat) (fuel : Nat)
    (r : Int × FSState) (h : lcwrite st fh buf fuel = some r) :
    r.2.file_handle = st.file_handle ∧ r.2.power_ons = st.power_ons := by
  simp only [lcwrite] at h
  split at h
  · cases h; exact ⟨rfl, rfl⟩
  · split at h
    · split at h
      · cases h; exact ⟨rfl, rfl⟩
      · obtain ⟨h1, h2⟩ := lcwrite_loop_fp _ _ _ _ _ _ _ _ h
        exact ⟨h1, h2⟩
    · exact lcwrite_loop_fp _ _ _ _ _ _ _ _ h

theorem lcclose_fp (st : FSState) (fh : Int) :
    (lcclose st fh).2.file_handle = st.file_handle ∧
    (lcclose st fh).2.power_ons = st.power_ons := by
  simp only [lcclose]
  split
  · exact ⟨rfl, rfl⟩
  · split
    · exact ⟨rfl, rfl⟩
    · exact ⟨rfl, rfl⟩

theorem closeLoop_fp : ∀ (n : Nat) (st : FSState) (i : Nat),
    (closeLoop st i n).2.file_handle = st.file_handle ∧
    (closeLoop st i n).2.power_ons = st.power_ons
  | 0, st, i => ⟨rfl, rfl⟩
  | n + 1, st, i => by
    simp only [closeLoop]
    split
    · split
      · exact lcclose_fp st (i : Int)
      · have hc := lcclose_fp st (i : Int)
        have hrec := closeLoop_fp n (lcclose st (i : Int)).2 (i + 1)
        exact ⟨hrec.1.trans hc.1, hrec.2.trans hc.2⟩
    · exact closeLoop_fp n st (i + 1)

theorem lcshutdown_fp (st : FSState) :
    (lcshutdown st).2.file_handle = st.file_handle ∧
    (lcshutdown st).2.power_ons = st.power_ons := by
  have hc := closeLoop_fp st.file_handle.toNat st 0
  simp only [lcshutdown]
  split
  · exact hc
  · split
    · exact hc
    · exact hc

theorem lcopen_body_fp (st : FSState) (p : Ptr) (c : List Nat) :
    ((lcopen_body st p c).2.file_handle = st.file_handle ∨
      (lcopen_body st p c).2.file_handle = st.file_handle + 1) ∧
    (lcopen_body st p c).2.power_ons = st.power_ons := by
  simp only [lcopen_body]
  split
  · split
    · exact ⟨Or.inl rfl, rfl⟩
    · exact ⟨Or.inl rfl, rfl⟩
  · exact ⟨Or.inr rfl, rfl⟩

theorem lcopen_body_zero (st : FSState) (p : Ptr) (c : List Nat)
    (hz : st.file_handle = 0) :
    (lcopen_body st p c).2.file_handle = 1 := by
  have hsc : lcopen_scan p 0 (Int.toNat 0) = none := rfl
  simp only [lcopen_body, hz, hsc]
  omega

theorem lcstep_fh (st : FSState) (op : LcOp) :
    (lcstep st op).file_handle = st.file_handle ∨
    (lcstep st op).file_handle = st.file_handle + 1 := by
  cases op with
  | doOpen p c =>
    simp only [lcstep, lcopen]
    split
    · split
      · exact Or.inl rfl
      · exact (lcopen_body_fp _ p c).1
    · exact (lcopen_body_fp st p c).1
  | doRead fh len =>
    simp only [lcstep]
    split
    · exact Or.inl rfl
    · rename_i r heq
      exact Or.inl (lcread_fp _ _ _ _ _ heq).1
  | doWrite fh buf =>
    simp only [lcstep]
    split
    · exact Or.inl rfl
    · rename_i r heq
      exact Or.inl (lcwrite_fp _ _ _ _ _ heq).1
  | doSeek fh off => exact Or.inl (lcseek_fp st fh off).1
  | doClose fh => exact Or.inl (lcclose_fp st fh).1
  | doShutdown => exact Or.inl (lcshutdown_fp st).1

theorem lcstep_po (st : FSState) (op : LcOp) (hne : st.file_handle ≠ 0) :
    (lcstep st op).power_ons = st.power_ons := by
  cases op with
  | doOpen p c =>
    simp only [lcstep, lcopen, if_neg hne]
    exact (lcopen_body_fp st p c).2
  | doRead fh len =>
    simp only [lcstep]
    split
    · rfl
    · rename_i r heq
      exact (lcread_fp _ _ _ _ _ heq).2
  | doWrite fh buf =>
    simp only [lcstep]
    split
    · rfl
    · rename_i r heq
      exact (lcwrite_fp _ _ _ _ _ heq).2
  | doSeek fh off => exact (lcseek_fp st fh off).2
  | doClose fh => exact (lcclose_fp st fh).2
  | doShutdown => exact (lcshutdown_fp st).2

theorem lcstep_po_noopen (st : FSState) (op : LcOp)
    (hno : ∀ p c, op ≠ LcOp.doOpen p c) :
    (lcstep st op).power_ons = st.power_ons := by
  cases op with
  | doOpen p c => exact absurd rfl (hno p c)
  | doRead fh len =>
    simp only [lcstep]
    split
    · rfl
    · rename_i r heq
      exact (lcread_fp _ _ _ _ _ heq).2
  | doWrite fh buf =>
    simp only [lcstep]
    split
    · rfl
    · rename_i r heq
      exact (lcwrite_fp _ _ _ _ _ heq).2
  | doSeek fh off => exact (lcseek_fp st fh off).2
  | doClose fh => exact (lcclose_fp st fh).2
  | doShutdown => exact (lcshutdown_fp st).2

theorem lcopen_first (st : FSState) (p : Ptr) (c : List Nat)
    (h0 : 0 ≤ st.file_handle) (hret : (lcopen st p c).1 ≠ -1) :
    1 ≤ (lcopen st p c).2.file_handle := by
  by_cases hz : st.file_handle = 0
  · rcases hdp : device_power_on_model with _ | ⟨devs, cache⟩
    · exfalso
      apply hret
      unfold lcopen
      rw [if_pos hz, hdp]
    · have hgoal : (lcopen st p c).2.file_handle =
          (lcopen_body
            { st with
              devices := devs
              cache := cache
              power_ons := st.power_ons + 1 } p c).2.file_handle := by
        unfold lcopen
        rw [if_pos hz, hdp]
      rw [hgoal,
        lcopen_body_zero
          { st with
            devices := devs
            cache := cache
            power_ons := st.power_ons + 1 } p c hz]
  · have hgoal : (lcopen st p c).2.file_handle =
        (lcopen_body st p c).2.file_handle := by
      unfold lcopen
      rw [if_neg hz]
    rw [hgoal]
    rcases (lcopen_body_fp st p c).1 with h1 | h1 <;> omega

theorem lcrun_po : ∀ (ops : List LcOp) (st : FSState),
    1 ≤ st.file_handle →
    (lcrun st ops).power_ons = st.power_ons ∧ 1 ≤ (lcrun st ops).file_handle
  | [], st, h => ⟨rfl, h⟩
  | op :: ops, st, h => by
    have hne : st.file_handle ≠ 0 := by omega
    have hpo := lcstep_po st op hne
    have hfh1 : 1 ≤ (lcstep st op).file_handle := by
      rcases lcstep_fh st op with h1 | h1 <;> omega
    have hrec := lcrun_po ops (lcstep st op) hfh1
    exact ⟨hrec.1.trans hpo, hrec.2⟩

/-- **C10**: power-on-and-probe happens at most once per process run.
`lcopen` powers the devices on only while the `file_handle` counter is
still 0; every driver call keeps the counter or increments it by one (it
is never reset, not even by `lcshutdown`); a successful open from a
non-negative counter leaves the counter at least 1; and from any state
with counter ≥ 1 an arbitrary sequence of driver calls — including a
shutdown followed by another open — performs no further power-on
(`power_ons` stays constant) while the counter stays ≥ 1. -/
theorem power_on_once :
    (∀ (st : FSState) (op : LcOp),
      (lcstep st op).file_handle = st.file_handle ∨
      (lcstep st op).file_handle = st.file_handle + 1) ∧
    (∀ (st : FSState) (op : LcOp), st.file_handle ≠ 0 →
      (lcstep st op).power_ons = st.power_ons) ∧
    (∀ (st : FSState) (op : LcOp), (∀ p c, op ≠ LcOp.doOpen p c) →
      (lcstep st op).power_ons = st.power_ons) ∧
    (∀ (st : FSState) (p : Ptr) (c : List Nat), 0 ≤ st.file_handle →
      (lcopen st p c).1 ≠ -1 → 1 ≤ (lcopen st p c).2.file_handle) ∧
    (∀ (ops : List LcOp) (st : FSState), 1 ≤ st.file_handle →
      (lcrun st ops).power_ons = st.power_ons ∧
      1 ≤ (lcrun st ops).file_handle) :=
  ⟨lcstep_fh, lcstep_po, lcstep_po_noopen, lcopen_first, lcrun_po⟩

theorem power_on_once_witness :
    1 ≤ c1_open.2.file_handle ∧
    (lcrun c1_open.2
        [LcOp.doShutdown,
         LcOp.doOpen (Ptr.external 1) [103, 0]]).power_ons =
      c1_open.2.power_ons :=
  ⟨power_on_once.2.2.2.1 fsInitial (Ptr.external 0) [102, 105, 108, 101]
      (by decide) (by decide),
   (power_on_once.2.2.2.2
      [LcOp.doShutdown, LcOp.doOpen (Ptr.external 1) [103, 0]]
      c1_open.2
      (power_on_once.2.2.2.1 fsInitial (Ptr.external 0) [102, 105, 108, 101]
        (by decide) (by decide))).1⟩
